import Mathlib

/-!
Verification of the NES emulator against its specification.

This file shallowly embeds the Rust sources of the emulator workspace
(crates `src`, `cpu6502`, `core`, `ppu`, `emulator`) into Lean and proves,
or refutes, the frozen behavioural claims about them.

Modelling conventions:
* `u8` / `u16` values are `Nat`s; wrapping arithmetic is written with an
  explicit `% 256` / `% 65536` exactly where the Rust code wraps.
* byte arrays (`[u8; N]`, `Vec<u8>`) are total functions `Nat → Nat`;
  theorems that depend on byte-sizedness carry explicit `< 256` bounds.
* a Rust `panic!` is modelled by returning `none` from an `Option`-valued
  function; fallible operations are `Option`-valued.
* `i16` quantities (the PPU scanline) are `Int`.
-/

set_option maxRecDepth 40000

namespace NES

/-! ## Register file (src/src/register.rs)

The status byte is stored as a plain `Nat` holding the `CpuFlags` bits. -/

/-- CpuFlags bit constants from `src/src/register.rs`. -/
def CpuFlags.CARRY : Nat := 0x01
def CpuFlags.ZERO : Nat := 0x02
def CpuFlags.INTERRUPT_DISABLE : Nat := 0x04
def CpuFlags.DECIMAL_MODE : Nat := 0x08
def CpuFlags.BREAK : Nat := 0x10
def CpuFlags.BREAK2 : Nat := 0x20
def CpuFlags.OVERFLOW : Nat := 0x40
def CpuFlags.NEGATIVE : Nat := 0x80

/-- Field selector for the generic register read/write path
(`RegisterField` in `src/src/register.rs`). -/
inductive RegisterField where
  | A
  | X
  | Y
  | SP
  | STATUS
deriving DecidableEq, Repr

/-- The CPU register file (`Register` in `src/src/register.rs`). -/
structure Register where
  a : Nat
  x : Nat
  y : Nat
  pc : Nat
  sp : Nat
  status : Nat
deriving DecidableEq, Repr

/-- Translation of `STACK_RESET` from `src/src/register.rs`. -/
def STACK_RESET : Nat := 0xFD

/-- Translation of `STACK` from `src/src/register.rs`. -/
def STACK : Nat := 0x0100

/-- Translation of `Register::new`: `sp = 0xFD`, `status = 0b100100`. -/
def Register.new : Register :=
  { a := 0, x := 0, y := 0, pc := 0, sp := STACK_RESET, status := 0b100100 }

/-- Translation of bitflags `insert`: `bits |= flag`. -/
def flagInsert (status flag : Nat) : Nat := status ||| flag

/-- Translation of bitflags `remove`: `bits &= !flag` (8-bit complement). -/
def flagRemove (status flag : Nat) : Nat := status &&& (255 ^^^ flag)

/-- Translation of bitflags `contains`: `bits & flag == flag`. -/
def flagContains (status flag : Nat) : Bool := status &&& flag = flag

/-- Translation of bitflags `set`: insert when `b`, remove otherwise. -/
def flagSet (status flag : Nat) (b : Bool) : Nat :=
  if b then flagInsert status flag else flagRemove status flag

/-- Status-byte part of `Register::update_zero_and_negative_flags`:
set the zero flag iff `result == 0`, the negative flag iff bit 7 of
`result` is set.  Split out so the flag computation can be reasoned
about independently of the record. -/
def znStatus (status result : Nat) : Nat :=
  let st := if result = 0 then flagInsert status CpuFlags.ZERO
            else flagRemove status CpuFlags.ZERO
  if result &&& 0x80 ≠ 0 then flagInsert st CpuFlags.NEGATIVE
  else flagRemove st CpuFlags.NEGATIVE

/-- Translation of `Register::update_zero_and_negative_flags`. -/
def Register.update_zero_and_negative_flags (r : Register) (result : Nat) : Register :=
  { r with status := znStatus r.status result }

/-- Translation of `Register::read`. -/
def Register.read (r : Register) (field : RegisterField) : Nat :=
  match field with
  | .A => r.a
  | .X => r.x
  | .Y => r.y
  | .SP => r.sp
  | .STATUS => r.status

/-- Translation of `Register::write`: store the value in the selected field,
then recompute zero/negative flags unless the field is `SP`. -/
def Register.write (r : Register) (field : RegisterField) (value : Nat) : Register :=
  let r :=
    match field with
    | .A => { r with a := value }
    | .X => { r with x := value }
    | .Y => { r with y := value }
    | .SP => { r with sp := value }
    | .STATUS => { r with status := value }
  match field with
  | .SP => r
  | _ => r.update_zero_and_negative_flags value

/-- Zero flag of a register file, read the way the code reads flags
(bitflags `contains`). -/
def Register.zeroFlag (r : Register) : Bool := flagContains r.status CpuFlags.ZERO

/-- Negative flag of a register file. -/
def Register.negativeFlag (r : Register) : Bool := flagContains r.status CpuFlags.NEGATIVE

/-- Carry flag of a register file. -/
def Register.carryFlag (r : Register) : Bool := flagContains r.status CpuFlags.CARRY

/-- Overflow flag of a register file. -/
def Register.overflowFlag (r : Register) : Bool := flagContains r.status CpuFlags.OVERFLOW

/-! ## CPU execution fragments (src/cpu6502/src/cpu.rs)

The claims about the CPU concern `page_cross`, the ADC/SBC arithmetic
core, the branch handler together with the generic tail of `CPU::tick`,
and `jmp_indirect`.  These are embedded below over the register file
and an abstract memory `Nat → Nat` (a pure view of the `Mem` bus;
the embedded fragments only read memory). -/

/-- Translation of `page_cross` (cpu.rs lines 13-15):
two addresses are on different 256-byte pages when their high bytes differ. -/
def page_cross (a b : Nat) : Bool := (a &&& 0xFF00) ≠ (b &&& 0xFF00)

/-- Translation of `CPU::add_to_register_a` (cpu.rs lines 352-370):
`sum = A + data + carry`; carry flag from `sum > 0xFF`; the result is the
sum truncated to 8 bits; overflow flag from
`(data ^ result) & (result ^ a) & 0x80 != 0`; result written to `A`
through the flag-updating register-write path. -/
def CPU.add_to_register_a (r : Register) (data : Nat) : Register :=
  let a := r.read .A
  let carry := if r.carryFlag then 1 else 0
  let sum := a + data + carry
  let r := { r with status := flagSet r.status CpuFlags.CARRY (0xFF < sum) }
  let result := sum % 256
  let ovf := ((data ^^^ result) &&& (result ^^^ a) &&& 0x80) ≠ 0
  let r := { r with status := flagSet r.status CpuFlags.OVERFLOW ovf }
  r.write .A result

/-- Operand transformation performed by `CPU::sbc` (cpu.rs lines 346-350):
`((data as i8).wrapping_neg().wrapping_sub(1)) as u8`, i.e. two's-complement
negation minus one on 8 bits. -/
def CPU.sbcOperand (data : Nat) : Nat :=
  ((256 - data % 256) % 256 + 255) % 256

/-- Translation of the execution core of `CPU::sbc`: add the transformed
operand to the accumulator. -/
def CPU.sbcOnOperand (r : Register) (data : Nat) : Register :=
  CPU.add_to_register_a r (CPU.sbcOperand data)

/-- Translation of the execution core of `CPU::adc`: add the memory
operand to the accumulator. -/
def CPU.adcOnOperand (r : Register) (data : Nat) : Register :=
  CPU.add_to_register_a r data

/-- Sign extension of a `u8` reinterpreted as `i8` and widened to `u16`
(Rust `jump as i8` followed by `... as u16` inside `wrapping_add`). -/
def i8AsU16 (j : Nat) : Nat := if 128 ≤ j then 0xFF00 + j else j

/-- Result of executing one branch opcode through `CPU::tick`:
final program counter and the number of cycles added to the
pending-cycle counter. -/
structure BranchOutcome where
  pc : Nat
  cyclesAdded : Nat
deriving DecidableEq, Repr

/-- Translation of the `CPU::tick` path for a branch instruction
(cpu.rs lines 53-201 specialised to the 8 branch opcodes, plus
`CPU::branch`, lines 456-469).  `pc0` is the program counter at the
opcode byte, `cond` the branch condition, `base`/`len` the opcode
descriptor's base cycle count and instruction length (2 and 2 for
every branch opcode in the table).  After the fetch the PC points at
the operand; a taken branch adds one cycle, reads the signed
displacement, adds another cycle on a page cross relative to the PC
after the operand, and sets the PC to the target; afterwards the
generic tail adds the base cycles and advances the PC by `len - 1`
exactly when the PC still equals its post-fetch value. -/
def CPU.branchTick (mem : Nat → Nat) (pc0 : Nat) (cond : Bool)
    (base len : Nat) : BranchOutcome :=
  let pc := (pc0 + 1) % 65536
  let program_counter_state := pc
  let st :=
    if cond then
      let cycles := 1
      let jump := mem pc
      let jump_addr := (pc + 1 + i8AsU16 jump) % 65536
      let cycles := if page_cross ((pc + 1) % 65536) jump_addr then cycles + 1 else cycles
      (jump_addr, cycles)
    else (pc, 0)
  let pc := st.1
  let cycles := st.2 + base
  let pc := if program_counter_state = pc then (pc + (len - 1)) % 65536 else pc
  ⟨pc, cycles⟩

/-- Branch target as the specification words it: the PC after the operand
byte plus the signed displacement, with 16-bit wraparound.  Used to compare
`CPU.branchTick` against the claim. -/
def specBranchTarget (mem : Nat → Nat) (pc0 : Nat) : Nat :=
  (pc0 + 2 + i8AsU16 (mem ((pc0 + 1) % 65536))) % 65536

/-- Translation of `Mem::mem_read_u16` as used by the CPU:
little-endian pair with wrapping increment of the address
(core/src/mem.rs lines 6-10). -/
def memReadU16 (mem : Nat → Nat) (addr : Nat) : Nat :=
  let lo := mem addr
  let hi := mem ((addr + 1) % 65536)
  (hi <<< 8) ||| lo

/-- Translation of `CPU::jmp_indirect` (cpu.rs lines 476-493). `pc` points
at the two-byte pointer operand; returns the new program counter.  When the
pointer's low byte is `0xFF` the high byte of the target is fetched from the
start of the pointer's page (the documented 6502 page-boundary bug). -/
def CPU.jmp_indirect (mem : Nat → Nat) (pc : Nat) : Nat :=
  let addr := memReadU16 mem pc
  if addr &&& 0x00FF = 0x00FF then
    let lo := mem addr
    let hi := mem (addr &&& 0xFF00)
    (hi <<< 8) ||| lo
  else
    memReadU16 mem addr

/-- Memory contents for the indirect-JMP scenario of the specification:
`$40` at `$3000`, `$80` at `$30FF`, `$50` at `$3100`, and the pointer
operand bytes `FF 30` (little-endian `$30FF`) at `$0601`. -/
def jmpBugMemory : Nat → Nat := fun a =>
  if a = 0x3000 then 0x40
  else if a = 0x30FF then 0x80
  else if a = 0x3100 then 0x50
  else if a = 0x0601 then 0xFF
  else if a = 0x0602 then 0x30
  else 0

/-! ## The `Mem` capability and its default 16-bit helpers (src/core/src/mem.rs)

The trait requires byte `mem_read`/`mem_write` at a 16-bit address and
derives the 16-bit pair operations from them.  The derived operations are
embedded generically over an implementing state type `σ` with its
`read : σ → Nat → Nat` and `write : σ → Nat → Nat → σ`. -/

/-- Translation of the default `Mem::mem_read_u16`: read the low byte at
`addr` and the high byte at `addr.wrapping_add(1)`, combining as
`(hi << 8) | lo`. -/
def Mem.read_u16 {σ : Type} (read : σ → Nat → Nat) (s : σ) (addr : Nat) : Nat :=
  let lo := read s addr
  let hi := read s ((addr + 1) % 65536)
  (hi <<< 8) ||| lo

/-- Translation of the default `Mem::mem_write_u16`: write `value & 0xFF`
at `addr` and `value >> 8` at `addr.wrapping_add(1)`. -/
def Mem.write_u16 {σ : Type} (write : σ → Nat → Nat → σ) (s : σ) (addr value : Nat) : σ :=
  let hi := value >>> 8
  let lo := value &&& 0xFF
  write (write s addr lo) ((addr + 1) % 65536) hi

/-- A memory whose byte read returns the last byte written at each
address: a plain function store over 16-bit addresses. -/
def fnMemRead (f : Nat → Nat) (addr : Nat) : Nat := f addr

/-- Point update of a function store. -/
def fnMemWrite (f : Nat → Nat) (addr value : Nat) : Nat → Nat :=
  fun a => if a = addr then value else f a

/-! ## Joypad (src/emulator/src/joypad.rs) -/

/-- JoypadButton bit constants (emulator/src/joypad.rs lines 3-15). -/
def JoypadButton.BUTTON_A : Nat := 0x01
def JoypadButton.BUTTON_B : Nat := 0x02
def JoypadButton.SELECT : Nat := 0x04
def JoypadButton.START : Nat := 0x08
def JoypadButton.UP : Nat := 0x10
def JoypadButton.DOWN : Nat := 0x20
def JoypadButton.LEFT : Nat := 0x40
def JoypadButton.RIGHT : Nat := 0x80

/-- The eight buttons in the fixed bit order `A, B, Select, Start, Up,
Down, Left, Right` (bit 0 through bit 7). -/
def joypadButtonOrder : List Nat :=
  [JoypadButton.BUTTON_A, JoypadButton.BUTTON_B, JoypadButton.SELECT,
   JoypadButton.START, JoypadButton.UP, JoypadButton.DOWN,
   JoypadButton.LEFT, JoypadButton.RIGHT]

/-- Translation of `Joypad` (emulator/src/joypad.rs). -/
structure Joypad where
  strobe : Bool
  button_index : Nat
  button_status : Nat
deriving DecidableEq, Repr

/-- Translation of `Joypad::new`. -/
def Joypad.new : Joypad := { strobe := false, button_index := 0, button_status := 0 }

/-- Translation of `Joypad::write`: bit 0 arms/disarms the strobe; arming
resets the read index. -/
def Joypad.write (j : Joypad) (data : Nat) : Joypad :=
  let strobe := data &&& 1 = 1
  if strobe then { j with strobe := strobe, button_index := 0 }
  else { j with strobe := strobe }

/-- Translation of `Joypad::read`: past index 7 the read returns 1 without
advancing; otherwise it returns the selected button bit and advances the
index when the strobe is disarmed. -/
def Joypad.read (j : Joypad) : Nat × Joypad :=
  if 7 < j.button_index then (1, j)
  else
    let response := (j.button_status &&& (1 <<< j.button_index)) >>> j.button_index
    if ¬j.strobe ∧ j.button_index ≤ 7 then
      (response, { j with button_index := j.button_index + 1 })
    else
      (response, j)

/-- Value returned by the `k`-th read (0-based) in a sequence of reads. -/
def Joypad.readSeq (j : Joypad) : Nat → Nat
  | 0 => (j.read).1
  | k + 1 => ((j.read).2).readSeq k

/-- Joypad state after `k` reads. -/
def Joypad.readIter (j : Joypad) : Nat → Joypad
  | 0 => j
  | k + 1 => ((j.read).2).readIter k

/-! ## PPU (src/ppu/src)

The per-dot state machine of `PPU::tick`, the register-window `Mem`
implementation, and the OAM-DMA bulk write, translated from
`src/ppu/src/lib.rs` with its submodules `registers/control.rs`,
`registers/loopy.rs`, `registers/status.rs` and `oam.rs`. -/

/-- Modelled from the spec: the cartridge `Mirroring` enum
(`core::cartridge`, whose source file is not in the snapshot) —
"mirroring: enum{Horizontal, Vertical}". -/
inductive Mirroring where
  | Horizontal
  | Vertical
deriving DecidableEq, Repr

/-- Translation of `LoopyRegister` (registers/loopy.rs): five masked
sub-fields of the 15-bit scroll/address composite register. -/
structure LoopyRegister where
  coarse_x : Nat
  coarse_y : Nat
  nametable_x : Nat
  nametable_y : Nat
  fine_y : Nat
  unused : Nat
deriving DecidableEq, Repr

/-- Translation of `LoopyRegister::new`. -/
def LoopyRegister.new : LoopyRegister :=
  { coarse_x := 0, coarse_y := 0, nametable_x := 0, nametable_y := 0,
    fine_y := 0, unused := 0 }

/-- Translation of `LoopyRegister::set_coarse_x` (masks to 5 bits). -/
def LoopyRegister.set_coarse_x (l : LoopyRegister) (v : Nat) : LoopyRegister :=
  { l with coarse_x := v &&& 0x1F }

/-- Translation of `LoopyRegister::set_coarse_y` (masks to 5 bits). -/
def LoopyRegister.set_coarse_y (l : LoopyRegister) (v : Nat) : LoopyRegister :=
  { l with coarse_y := v &&& 0x1F }

/-- Translation of `LoopyRegister::set_nametable_x` (masks to 1 bit). -/
def LoopyRegister.set_nametable_x (l : LoopyRegister) (v : Nat) : LoopyRegister :=
  { l with nametable_x := v &&& 0x01 }

/-- Translation of `LoopyRegister::set_nametable_y` (masks to 1 bit). -/
def LoopyRegister.set_nametable_y (l : LoopyRegister) (v : Nat) : LoopyRegister :=
  { l with nametable_y := v &&& 0x01 }

/-- Translation of `LoopyRegister::set_fine_y` (masks to 3 bits). -/
def LoopyRegister.set_fine_y (l : LoopyRegister) (v : Nat) : LoopyRegister :=
  { l with fine_y := v &&& 0x07 }

/-- Translation of `LoopyRegister::get_bits`: repack the sub-fields into
the 15-bit word. -/
def LoopyRegister.get_bits (l : LoopyRegister) : Nat :=
  l.coarse_x ||| (l.coarse_y <<< 5) ||| (l.nametable_x <<< 10) |||
    (l.nametable_y <<< 11) ||| (l.fine_y <<< 12)

/-- Translation of `LoopyRegister::set_bits`: unpack a 16-bit word into
the masked sub-fields. -/
def LoopyRegister.set_bits (l : LoopyRegister) (value : Nat) : LoopyRegister :=
  ((((l.set_coarse_x (value &&& 0x1F)).set_coarse_y
      ((value >>> 5) &&& 0x1F)).set_nametable_x
      ((value >>> 10) &&& 0x1)).set_nametable_y
      ((value >>> 11) &&& 0x1)).set_fine_y ((value >>> 12) &&& 0x7)

/-- ControlRegister bit constants (registers/control.rs). -/
def ControlRegister.NAMETABLE1 : Nat := 0x01
def ControlRegister.NAMETABLE2 : Nat := 0x02
def ControlRegister.VRAM_ADD_INCREMENT : Nat := 0x04
def ControlRegister.SPRITE_PATTERN_ADDR : Nat := 0x08
def ControlRegister.BACKGROUND_PATTERN_ADDR : Nat := 0x10
def ControlRegister.SPRITE_SIZE : Nat := 0x20
def ControlRegister.GENERATE_NMI_AT_VBI : Nat := 0x80

/-- Translation of `ControlRegister::vram_address_increment`. -/
def controlVramAddressIncrement (control : Nat) : Nat :=
  if flagContains control ControlRegister.VRAM_ADD_INCREMENT then 32 else 1

/-- Translation of `ControlRegister::sprite_pattern_table_address`. -/
def controlSpritePatternTableAddress (control : Nat) : Nat :=
  if flagContains control ControlRegister.SPRITE_PATTERN_ADDR then 0x1000 else 0x0000

/-- Translation of `ControlRegister::sprite_size`: 16 in 8×16 mode, 8 otherwise. -/
def controlSpriteSize (control : Nat) : Nat :=
  if flagContains control ControlRegister.SPRITE_SIZE then 16 else 8

/-- Translation of `ControlRegister::generate_vblank_nmi`. -/
def controlGenerateVblankNmi (control : Nat) : Bool :=
  flagContains control ControlRegister.GENERATE_NMI_AT_VBI

/-- StatusRegister bit constants (registers/status.rs). -/
def StatusRegister.SPRITE_OVERFLOW : Nat := 0x20
def StatusRegister.SPRITE_ZERO_HIT : Nat := 0x40
def StatusRegister.VERTICAL_BLANK_STARTED : Nat := 0x80

/-- Modelled from the spec: `StatusRegister::set_vblank_status` (the method
bodies beyond `new` are absent from the snapshot of registers/status.rs);
sets/clears the `VERTICAL_BLANK_STARTED` bit. -/
def statusSetVblank (status : Nat) (b : Bool) : Nat :=
  flagSet status StatusRegister.VERTICAL_BLANK_STARTED b

/-- Modelled from the spec: `StatusRegister::reset_vblank_status`. -/
def statusResetVblank (status : Nat) : Nat :=
  flagRemove status StatusRegister.VERTICAL_BLANK_STARTED

/-- Modelled from the spec: `StatusRegister::set_sprite_overflow`. -/
def statusSetSpriteOverflow (status : Nat) (b : Bool) : Nat :=
  flagSet status StatusRegister.SPRITE_OVERFLOW b

/-- Modelled from the spec: `StatusRegister::set_sprite_zero_hit`. -/
def statusSetSpriteZeroHit (status : Nat) (b : Bool) : Nat :=
  flagSet status StatusRegister.SPRITE_ZERO_HIT b

/-- MaskRegister bit constants; modelled from the spec and from the
`MaskFlags` bit layout recorded in src/ppu/src/register.rs (the
`registers/mask.rs` module itself is absent from the snapshot). -/
def MaskRegister.GRAYSCALE : Nat := 0x01
def MaskRegister.SHOW_BACKGROUND : Nat := 0x08
def MaskRegister.SHOW_SPRITES : Nat := 0x10

/-- Modelled from the spec: `MaskRegister::show_background` (bit 3). -/
def maskShowBackground (mask : Nat) : Bool :=
  flagContains mask MaskRegister.SHOW_BACKGROUND

/-- Modelled from the spec: `MaskRegister::show_sprites` (bit 4). -/
def maskShowSprites (mask : Nat) : Bool :=
  flagContains mask MaskRegister.SHOW_SPRITES

/-- Modelled from the spec: `MaskRegister::is_grayscale` (bit 0). -/
def maskIsGrayscale (mask : Nat) : Bool :=
  flagContains mask MaskRegister.GRAYSCALE

/-- The PPU register sub-state (`Registers` as used by ppu/src/lib.rs:
control, mask, status, OAM address and the two loopy registers).
The snapshot's register.rs predates this struct; the fields and the
all-zero construction are taken from lib.rs usage and the spec. -/
structure PPURegisters where
  control : Nat
  mask : Nat
  status : Nat
  oam_address : Nat
  vram_addr : LoopyRegister
  tram_addr : LoopyRegister
deriving DecidableEq, Repr

/-- Translation of `Registers::new`: everything zeroed. -/
def PPURegisters.new : PPURegisters :=
  { control := 0, mask := 0, status := 0, oam_address := 0,
    vram_addr := LoopyRegister.new, tram_addr := LoopyRegister.new }

/-- Translation of `Oam` (ppu/src/oam.rs): one sprite descriptor. -/
structure Oam where
  tile_y : Nat
  tile_x : Nat
  tile_index : Nat
  attributes : Nat
deriving DecidableEq, Repr

/-- Translation of `Oam::new` on one 4-byte chunk `[y, index, attr, x]`. -/
def Oam.new (b0 b1 b2 b3 : Nat) : Oam :=
  { tile_y := b0, tile_index := b1, attributes := b2, tile_x := b3 }

/-- Translation of `Oam::oam_iter`: the 64 sprites of the 256-byte OAM. -/
def Oam.oam_iter (oam_data : Nat → Nat) : List Oam :=
  (List.range 64).map fun i =>
    Oam.new (oam_data (4 * i)) (oam_data (4 * i + 1))
      (oam_data (4 * i + 2)) (oam_data (4 * i + 3))

/-- Translation of `Oam::palette_index`: low two attribute bits. -/
def Oam.palette_index (o : Oam) : Nat := o.attributes &&& 0x03

/-- Translation of `Oam::flip_horizontal` (attribute bit 6). -/
def Oam.flip_horizontal (o : Oam) : Bool := flagContains o.attributes 0x40

/-- Translation of `Oam::flip_vertical` (attribute bit 7). -/
def Oam.flip_vertical (o : Oam) : Bool := flagContains o.attributes 0x80

/-- Translation of `Oam::priority_in_front_of_background`
(attribute bit 5 clear). -/
def Oam.priority_in_front_of_background (o : Oam) : Bool :=
  ¬ flagContains o.attributes 0x20

/-- The PPU state (`PPU` in ppu/src/lib.rs).  Byte stores are total
functions; `sprite_scanline` is the staged-sprite list; the two sprite
pattern shifter arrays (`[u8; 8]`) are functions from the slot index. -/
structure PPU where
  chr_rom : Nat → Nat
  palette_table : Nat → Nat
  vram : Nat → Nat
  oam_data : Nat → Nat
  mirroring : Mirroring
  registers : PPURegisters
  internal_data_buf : Nat
  scanline : Int
  cycles : Nat
  nmi_interrupt : Option Nat
  frame : Nat → Nat
  bg_next_tile_id : Nat
  bg_next_tile_attrib : Nat
  bg_next_tile_lsb : Nat
  bg_next_tile_msb : Nat
  bg_shifter_pattern_lo : Nat
  bg_shifter_pattern_hi : Nat
  bg_shifter_attrib_lo : Nat
  bg_shifter_attrib_hi : Nat
  address_latch : Nat
  fine_x : Nat
  sprite_scanline : List Oam
  sprite_shifter_pattern_lo : Nat → Nat
  sprite_shifter_pattern_hi : Nat → Nat
  sprite_zero_hit_possible : Bool
  sprite_zero_being_rendered : Bool

/-- Translation of `PPU::new` (lib.rs lines 72-106): note the freshly
constructed machine starts at `scanline = 0`, `cycles = 0`. -/
def PPU.new (chr_rom : Nat → Nat) (mirroring : Mirroring) : PPU :=
  { chr_rom := chr_rom
    palette_table := fun _ => 0
    vram := fun _ => 0
    oam_data := fun _ => 0
    mirroring := mirroring
    registers := PPURegisters.new
    internal_data_buf := 0
    scanline := 0
    cycles := 0
    nmi_interrupt := none
    frame := fun _ => 0
    bg_next_tile_id := 0
    bg_next_tile_attrib := 0
    bg_next_tile_lsb := 0
    bg_next_tile_msb := 0
    bg_shifter_pattern_lo := 0
    bg_shifter_pattern_hi := 0
    bg_shifter_attrib_lo := 0
    bg_shifter_attrib_hi := 0
    address_latch := 0
    fine_x := 0
    sprite_scanline := []
    sprite_shifter_pattern_lo := fun _ => 0
    sprite_shifter_pattern_hi := fun _ => 0
    sprite_zero_hit_possible := false
    sprite_zero_being_rendered := false }

/-- Translation of `PPU::new_empty_rom`: a 2-KiB all-zero CHR ROM with
horizontal mirroring. -/
def PPU.new_empty_rom : PPU := PPU.new (fun _ => 0) Mirroring.Horizontal

/-- Translation of `PPU::mirror_vram_addr` (lib.rs lines 557-569). -/
def PPU.mirror_vram_addr (p : PPU) (addr : Nat) : Nat :=
  let mirrored_vram := addr &&& 0b10111111111111
  let vram_index := mirrored_vram - 0x2000
  let name_table := vram_index / 0x400
  match p.mirroring, name_table with
  | Mirroring.Vertical, 2 => vram_index - 0x800
  | Mirroring.Vertical, 3 => vram_index - 0x800
  | Mirroring.Horizontal, 2 => vram_index - 0x400
  | Mirroring.Horizontal, 1 => vram_index - 0x400
  | Mirroring.Horizontal, 3 => vram_index - 0x800
  | _, _ => vram_index

/-- Translation of `PPU::ppu_read` (lib.rs lines 633-661).  The
`panic!` on addresses above `$3FFF` is `none`. -/
def PPU.ppu_read (p : PPU) (addr : Nat) : Option Nat :=
  if addr ≤ 0x1FFF then some (p.chr_rom addr)
  else if 0x2000 ≤ addr ∧ addr ≤ 0x3EFF then
    some (p.vram (p.mirror_vram_addr addr))
  else if 0x3F00 ≤ addr ∧ addr ≤ 0x3FFF then
    let a := addr &&& 0x001F
    let a := if a = 0x0010 then 0x0000 else a
    let a := if a = 0x0014 then 0x0004 else a
    let a := if a = 0x0018 then 0x0008 else a
    let a := if a = 0x001C then 0x000C else a
    let palette_mask := if maskIsGrayscale p.registers.mask then 0x30 else 0x3F
    some (p.palette_table a &&& palette_mask)
  else none

/-- Translation of `PPU::ppu_write` (lib.rs lines 663-686). -/
def PPU.ppu_write (p : PPU) (addr value : Nat) : Option PPU :=
  if addr ≤ 0x1FFF then
    some { p with chr_rom := fun i => if i = addr then value else p.chr_rom i }
  else if 0x2000 ≤ addr ∧ addr ≤ 0x3EFF then
    let m := p.mirror_vram_addr addr
    some { p with vram := fun i => if i = m then value else p.vram i }
  else if 0x3F00 ≤ addr ∧ addr ≤ 0x3FFF then
    let a := addr &&& 0x001F
    let a := if a = 0x0010 then 0x0000 else a
    let a := if a = 0x0014 then 0x0004 else a
    let a := if a = 0x0018 then 0x0008 else a
    let a := if a = 0x001C then 0x000C else a
    some { p with palette_table := fun i => if i = a then value else p.palette_table i }
  else none

/-! ### PPU register-window operations (lib.rs lines 522-631) -/

/-- Translation of `PPU::increment_vram_addr`. -/
def PPU.increment_vram_addr (p : PPU) : PPU :=
  let value := (p.registers.vram_addr.get_bits +
    controlVramAddressIncrement p.registers.control) % 65536
  { p with registers :=
      { p.registers with vram_addr := p.registers.vram_addr.set_bits value } }

/-- Translation of `PPU::read_data`: buffered VRAM read with the palette
range bypassing the one-byte read-ahead buffer. -/
def PPU.read_data (p : PPU) : Option (Nat × PPU) := do
  let addr := p.registers.vram_addr.get_bits
  let fetched ← p.ppu_read addr
  let result := if 0x3F00 ≤ addr then fetched else p.internal_data_buf
  let p := { p with internal_data_buf := fetched }
  return (result, p.increment_vram_addr)

/-- Translation of `PPU::write_to_data`. -/
def PPU.write_to_data (p : PPU) (value : Nat) : Option PPU := do
  let p ← p.ppu_write p.registers.vram_addr.get_bits value
  return p.increment_vram_addr

/-- Translation of `PPU::write_to_ppu_address` (the write-twice latch). -/
def PPU.write_to_ppu_address (p : PPU) (value : Nat) : PPU :=
  if p.address_latch = 0 then
    let t := p.registers.tram_addr.set_bits
      (((value &&& 0x03F) <<< 8) ||| (p.registers.tram_addr.get_bits &&& 0x00FF))
    { p with registers := { p.registers with tram_addr := t }, address_latch := 1 }
  else
    let t := p.registers.tram_addr.set_bits
      ((p.registers.tram_addr.get_bits &&& 0xFF00) ||| value)
    let v := p.registers.vram_addr.set_bits t.get_bits
    { p with registers := { p.registers with tram_addr := t, vram_addr := v },
             address_latch := 0 }

/-- Translation of `PPU::write_to_control`. -/
def PPU.write_to_control (p : PPU) (value : Nat) : PPU :=
  let control := value
  let t := p.registers.tram_addr.set_nametable_x
    (if flagContains control ControlRegister.NAMETABLE1 then 1 else 0)
  let t := t.set_nametable_y
    (if flagContains control ControlRegister.NAMETABLE2 then 1 else 0)
  { p with registers := { p.registers with control := control, tram_addr := t } }

/-- Translation of `PPU::read_status`: returns the snapshot and clears
the vblank bit and the address latch. -/
def PPU.read_status (p : PPU) : Nat × PPU :=
  let data := p.registers.status
  ( data,
    { p with registers := { p.registers with status := statusResetVblank p.registers.status },
             address_latch := 0 } )

/-- Translation of `PPU::write_to_oam_address`. -/
def PPU.write_to_oam_address (p : PPU) (value : Nat) : PPU :=
  { p with registers := { p.registers with oam_address := value } }

/-- Translation of `PPU::write_to_oam_data`: store at the OAM address and
advance it with 8-bit wraparound. -/
def PPU.write_to_oam_data (p : PPU) (value : Nat) : PPU :=
  { p with
    oam_data := fun i => if i = p.registers.oam_address then value else p.oam_data i,
    registers := { p.registers with oam_address := (p.registers.oam_address + 1) % 256 } }

/-- Translation of `PPU::read_oam_data`. -/
def PPU.read_oam_data (p : PPU) : Nat :=
  p.oam_data p.registers.oam_address

/-- Translation of `PPU::write_oam_dma` (lib.rs lines 626-631): write each
buffer byte at the current OAM address, advancing it with 8-bit wraparound. -/
def PPU.write_oam_dma (p : PPU) (data : List Nat) : PPU :=
  data.foldl (fun p x => p.write_to_oam_data x) p

/-- PPU register-window field selector (`RegisterField` of
src/ppu/src/register.rs, with the names used by lib.rs). -/
inductive PPURegField where
  | Control
  | Mask
  | Status
  | OAMAddress
  | OAMData
  | Scroll
  | Address
  | Data
  | OAMDMA
deriving DecidableEq, Repr

/-- Register access mode (`RegisterAccess` of src/ppu/src/register.rs). -/
inductive RegisterAccess where
  | ReadWrite
  | ReadOnly
  | WriteOnly
deriving DecidableEq, Repr

/-- Translation of `is_read_allowed`. -/
def is_read_allowed (a : RegisterAccess) : Bool :=
  match a with
  | .ReadWrite => true
  | .ReadOnly => true
  | .WriteOnly => false

/-- Translation of `is_write_allowed`. -/
def is_write_allowed (a : RegisterAccess) : Bool :=
  match a with
  | .ReadWrite => true
  | .ReadOnly => false
  | .WriteOnly => true

/-- Translation of `PPU_REGISTERS_MAP`: the nine mapped register
addresses with their access modes. -/
def ppuRegisterMap (addr : Nat) : Option (PPURegField × RegisterAccess) :=
  if addr = 0x2000 then some (.Control, .WriteOnly)
  else if addr = 0x2001 then some (.Mask, .WriteOnly)
  else if addr = 0x2002 then some (.Status, .ReadOnly)
  else if addr = 0x2003 then some (.OAMAddress, .WriteOnly)
  else if addr = 0x2004 then some (.OAMData, .ReadWrite)
  else if addr = 0x2005 then some (.Scroll, .WriteOnly)
  else if addr = 0x2006 then some (.Address, .WriteOnly)
  else if addr = 0x2007 then some (.Data, .ReadWrite)
  else if addr = 0x4014 then some (.OAMDMA, .WriteOnly)
  else none

/-- Translation of the PPU's `Mem::mem_read` (lib.rs lines 690-710):
reads from a write-only register log a warning and return 0; unmapped
addresses return 0; reads dispatch to status / OAM data / data, and any
other mapped field is a `panic!` (`none`). -/
def PPU.mem_read (p : PPU) (addr : Nat) : Option (Nat × PPU) :=
  match ppuRegisterMap addr with
  | some (field, access) =>
    if ¬ is_read_allowed access then some (0, p)
    else
      match field with
      | .Status =>
        let st := p.read_status
        some ((st.1 &&& 0xE0) ||| (p.internal_data_buf &&& 0x1F), st.2)
      | .OAMData => some (p.read_oam_data, p)
      | .Data => p.read_data
      | _ => none
  | none => some (0x00, p)

/-- Translation of the PPU's `Mem::mem_write` (lib.rs lines 712-743):
writes to a read-only register are a `panic!` (`none`); unmapped
addresses are ignored; `OAMDMA` is mapped but not handled by this match,
hitting the `panic!` default arm. -/
def PPU.mem_write (p : PPU) (addr value : Nat) : Option PPU :=
  match ppuRegisterMap addr with
  | some (field, access) =>
    if ¬ is_write_allowed access then none
    else
      match field with
      | .Control => some (p.write_to_control value)
      | .Mask => some { p with registers := { p.registers with mask := value } }
      | .OAMAddress => some (p.write_to_oam_address value)
      | .OAMData => some (p.write_to_oam_data value)
      | .Scroll =>
        if p.address_latch = 0 then
          let t := p.registers.tram_addr.set_coarse_x (value >>> 3)
          some { p with fine_x := value &&& 0x07, address_latch := 1,
                        registers := { p.registers with tram_addr := t } }
        else
          let t := (p.registers.tram_addr.set_fine_y (value &&& 0x07)).set_coarse_y (value >>> 3)
          some { p with address_latch := 0,
                        registers := { p.registers with tram_addr := t } }
      | .Address => some (p.write_to_ppu_address value)
      | .Data => p.write_to_data value
      | .OAMDMA => none
      | .Status => none
  | none => some p

/-! ### PPU tick (lib.rs lines 108-495)

The per-dot body of `PPU::tick` is decomposed phase by phase in source
order; `PPU.tickOne` chains the phases for a single dot and reports the
`frame_complete` flag contribution of that dot. -/

/-- Truncating cast of the `i16` scanline to `u16` (Rust `as u16`). -/
def i16AsU16Cast (s : Int) : Nat := (s.emod 65536).toNat

/-- Truncating cast of the `i16` scanline to `usize` (Rust `as usize`). -/
def i16AsUsize (s : Int) : Nat := (s.emod (2 ^ 64)).toNat

/-- Wrapping 16-bit subtraction (Rust u16 subtraction in release mode). -/
def u16WrapSub (a b : Nat) : Nat := (a % 65536 + 65536 - b % 65536) % 65536

/-- Wrapping 64-bit subtraction (Rust `usize::wrapping_sub`). -/
def usizeWrapSub (a b : Nat) : Nat :=
  (a % 2 ^ 64 + 2 ^ 64 - b % 2 ^ 64) % 2 ^ 64

/-- Translation of `PPU::increment_scroll_x` (lib.rs lines 108-121). -/
def PPU.increment_scroll_x (p : PPU) : PPU :=
  if maskShowSprites p.registers.mask ∨ maskShowBackground p.registers.mask then
    if p.registers.vram_addr.coarse_x = 31 then
      let v := (p.registers.vram_addr.set_coarse_x 0).set_nametable_x
        (if p.registers.vram_addr.nametable_x = 0 then 1 else 0)
      { p with registers := { p.registers with vram_addr := v } }
    else
      let v := p.registers.vram_addr.set_coarse_x (p.registers.vram_addr.coarse_x + 1)
      { p with registers := { p.registers with vram_addr := v } }
  else p

/-- Translation of `PPU::increment_scroll_y` (lib.rs lines 123-146).
The source negates nametable bits with `!`; on the masked 1-bit value
this flips 0 and 1. -/
def PPU.increment_scroll_y (p : PPU) : PPU :=
  if maskShowSprites p.registers.mask ∨ maskShowBackground p.registers.mask then
    if p.registers.vram_addr.fine_y < 7 then
      let v := p.registers.vram_addr.set_fine_y (p.registers.vram_addr.fine_y + 1)
      { p with registers := { p.registers with vram_addr := v } }
    else
      let v := p.registers.vram_addr.set_fine_y 0
      let v :=
        if v.coarse_y = 29 then
          (v.set_coarse_y 0).set_nametable_y (if v.nametable_y = 0 then 1 else 0)
        else if v.coarse_y = 31 then
          v.set_coarse_y 0
        else
          v.set_coarse_y (v.coarse_y + 1)
      { p with registers := { p.registers with vram_addr := v } }
  else p

/-- Translation of `PPU::transfer_address_x` (lib.rs lines 148-157). -/
def PPU.transfer_address_x (p : PPU) : PPU :=
  if maskShowSprites p.registers.mask ∨ maskShowBackground p.registers.mask then
    let v := (p.registers.vram_addr.set_nametable_x
      p.registers.tram_addr.nametable_x).set_coarse_x p.registers.tram_addr.coarse_x
    { p with registers := { p.registers with vram_addr := v } }
  else p

/-- Translation of `PPU::transfer_address_y` (lib.rs lines 159-171). -/
def PPU.transfer_address_y (p : PPU) : PPU :=
  if maskShowSprites p.registers.mask ∨ maskShowBackground p.registers.mask then
    let v := ((p.registers.vram_addr.set_fine_y
      p.registers.tram_addr.fine_y).set_nametable_y
      p.registers.tram_addr.nametable_y).set_coarse_y p.registers.tram_addr.coarse_y
    { p with registers := { p.registers with vram_addr := v } }
  else p

/-- Translation of `PPU::load_background_shifters` (lib.rs lines 173-192). -/
def PPU.load_background_shifters (p : PPU) : PPU :=
  { p with
    bg_shifter_pattern_lo := (p.bg_shifter_pattern_lo &&& 0xFF00) ||| p.bg_next_tile_lsb,
    bg_shifter_pattern_hi := (p.bg_shifter_pattern_hi &&& 0xFF00) ||| p.bg_next_tile_msb,
    bg_shifter_attrib_lo := (p.bg_shifter_attrib_lo &&& 0xFF00) |||
      (if 0 < p.bg_next_tile_attrib &&& 0b01 then 0xFF else 0x00),
    bg_shifter_attrib_hi := (p.bg_shifter_attrib_hi &&& 0xFF00) |||
      (if 0 < p.bg_next_tile_attrib &&& 0b10 then 0xFF else 0x00) }

/-- Helper for the sprite half of `PPU::update_shifters`: walk the staged
sprites at slots `idx, idx+1, …`, decrementing a positive `tile_x` or
shifting the slot's pattern shifters (8-bit wrapping shift). -/
def PPU.spriteShiftWalk : List Oam → Nat → (Nat → Nat) → (Nat → Nat) →
    List Oam × (Nat → Nat) × (Nat → Nat)
  | [], _, lo, hi => ([], lo, hi)
  | oam :: rest, idx, lo, hi =>
    if 0 < oam.tile_x then
      let st := PPU.spriteShiftWalk rest (idx + 1) lo hi
      ({ oam with tile_x := oam.tile_x - 1 } :: st.1, st.2)
    else
      let lo := fun i => if i = idx then (lo idx <<< 1) % 256 else lo i
      let hi := fun i => if i = idx then (hi idx <<< 1) % 256 else hi i
      let st := PPU.spriteShiftWalk rest (idx + 1) lo hi
      (oam :: st.1, st.2)

/-- Translation of `PPU::update_shifters` (lib.rs lines 194-213):
16-bit wrapping shift of the background shifters while the background is
shown; sprite `tile_x` countdown / pattern shift while sprites are shown
during dots 1-257. -/
def PPU.update_shifters (p : PPU) : PPU :=
  let p :=
    if maskShowBackground p.registers.mask then
      { p with
        bg_shifter_pattern_lo := (p.bg_shifter_pattern_lo <<< 1) % 65536,
        bg_shifter_pattern_hi := (p.bg_shifter_pattern_hi <<< 1) % 65536,
        bg_shifter_attrib_lo := (p.bg_shifter_attrib_lo <<< 1) % 65536,
        bg_shifter_attrib_hi := (p.bg_shifter_attrib_hi <<< 1) % 65536 }
    else p
  if maskShowSprites p.registers.mask ∧ 1 ≤ p.cycles ∧ p.cycles < 258 then
    let st := PPU.spriteShiftWalk p.sprite_scanline 0
      p.sprite_shifter_pattern_lo p.sprite_shifter_pattern_hi
    { p with sprite_scanline := st.1,
             sprite_shifter_pattern_lo := st.2.1,
             sprite_shifter_pattern_hi := st.2.2 }
  else p

/-- Translation of the 8-dot background fetch pipeline switch
(lib.rs lines 240-298), applied after `update_shifters`. -/
def PPU.fetchGroup (p : PPU) : Option PPU :=
  let group := (p.cycles - 1) % 8
  if group = 0 then do
    let p := p.load_background_shifters
    let v ← p.ppu_read (0x2000 ||| (p.registers.vram_addr.get_bits &&& 0x0FFF))
    return { p with bg_next_tile_id := v }
  else if group = 2 then do
    let addr := 0x23C0 ||| (p.registers.vram_addr.nametable_y <<< 11) |||
      (p.registers.vram_addr.nametable_x <<< 10) |||
      ((p.registers.vram_addr.coarse_y >>> 2) <<< 3) |||
      (p.registers.vram_addr.coarse_x >>> 2)
    let v ← p.ppu_read addr
    let v := if 0 < p.registers.vram_addr.coarse_y &&& 0x02 then v >>> 4 else v
    let v := if 0 < p.registers.vram_addr.coarse_x &&& 0x02 then v >>> 2 else v
    return { p with bg_next_tile_attrib := v &&& 0x03 }
  else if group = 4 then do
    let addr := ((if flagContains p.registers.control
      ControlRegister.BACKGROUND_PATTERN_ADDR then 1 else 0) <<< 12)
    let addr := (addr + ((p.bg_next_tile_id <<< 4) % 65536)) % 65536
    let addr := (addr + p.registers.vram_addr.fine_y) % 65536
    let v ← p.ppu_read addr
    return { p with bg_next_tile_lsb := v }
  else if group = 6 then do
    let addr := ((if flagContains p.registers.control
      ControlRegister.BACKGROUND_PATTERN_ADDR then 1 else 0) <<< 12)
    let addr := (addr + ((p.bg_next_tile_id <<< 4) % 65536)) % 65536
    let addr := (addr + (p.registers.vram_addr.fine_y + 8)) % 65536
    let v ← p.ppu_read addr
    return { p with bg_next_tile_msb := v }
  else if group = 7 then
    some p.increment_scroll_x
  else
    some p

/-- Translation of the next-tile-id prefetch at dots 338 and 340
(lib.rs lines 310-313). -/
def PPU.prefetchTileId (p : PPU) : Option PPU := do
  let v ← p.ppu_read (0x2000 ||| (p.registers.vram_addr.get_bits &&& 0x0FFF))
  return { p with bg_next_tile_id := v }

/-- Translation of the pre-render clear at `(-1, 1)` (lib.rs lines 225-233):
clear vblank, sprite-overflow and sprite-zero-hit, and zero the sprite
pattern shifters. -/
def PPU.clearForPreRender (p : PPU) : PPU :=
  let st := statusResetVblank p.registers.status
  let st := statusSetSpriteOverflow st false
  let st := statusSetSpriteZeroHit st false
  { p with registers := { p.registers with status := st },
           sprite_shifter_pattern_lo := fun _ => 0,
           sprite_shifter_pattern_hi := fun _ => 0 }

/-- Translation of the sprite evaluation at dot 257 of a visible scanline
(lib.rs lines 320-339).  `sprite_count` is carried but never incremented
by the source loop, so the overflow flag is set from `0 > 8`. -/
def PPU.spriteEval (p : PPU) : PPU :=
  let st := (Oam.oam_iter p.oam_data).foldl
    (fun (acc : List Oam × Nat) oam =>
      if 9 ≤ acc.2 then acc
      else
        let diff : Int := p.scanline - (oam.tile_y : Int)
        if 0 ≤ diff ∧ diff < (controlSpriteSize p.registers.control : Int) then
          if acc.1.length < 8 then (acc.1 ++ [oam], acc.2) else acc
        else acc)
    ([], 0)
  let status := statusSetSpriteOverflow p.registers.status (8 < st.2)
  { p with sprite_scanline := st.1,
           registers := { p.registers with status := status } }

/-- Translation of `flipbyte` (lib.rs lines 393-398). -/
def flipbyte (input : Nat) : Nat :=
  let b := ((input &&& 0xF0) >>> 4) ||| (((input &&& 0x0F) <<< 4) % 256)
  let b := ((b &&& 0xCC) >>> 2) ||| (((b &&& 0x33) <<< 2) % 256)
  ((b &&& 0xAA) >>> 1) ||| (((b &&& 0x55) <<< 1) % 256)

/-- Translation of the sprite pattern address computation inside the
dot-340 sprite fetch (lib.rs lines 344-385), with Rust's wrapping u16 /
usize subtraction semantics made explicit. -/
def PPU.spriteFetchAddrLo (p : PPU) (oam : Oam) : Nat :=
  let s16 := i16AsU16Cast p.scanline
  let y16 := oam.tile_y % 65536
  if ¬ flagContains p.registers.control ControlRegister.SPRITE_SIZE then
    if ¬ oam.flip_vertical then
      controlSpritePatternTableAddress p.registers.control |||
        ((oam.tile_index <<< 4) % 65536) ||| u16WrapSub s16 y16
    else
      controlSpritePatternTableAddress p.registers.control |||
        ((oam.tile_index <<< 4) % 65536) ||| u16WrapSub (u16WrapSub 7 s16) y16
  else
    if ¬ oam.flip_vertical then
      if usizeWrapSub (i16AsUsize p.scanline) oam.tile_y < 8 then
        controlSpritePatternTableAddress p.registers.control |||
          ((oam.tile_index <<< 4) % 65536) ||| (u16WrapSub s16 y16 &&& 0x07)
      else
        controlSpritePatternTableAddress p.registers.control |||
          ((((oam.tile_index &&& 0xFE) + 1) <<< 4) % 65536) |||
          (u16WrapSub s16 y16 &&& 0x07)
    else
      if usizeWrapSub (i16AsUsize p.scanline) oam.tile_y < 8 then
        controlSpritePatternTableAddress p.registers.control |||
          ((((oam.tile_index &&& 0xFE) + 1) <<< 4) % 65536) |||
          (u16WrapSub 7 (u16WrapSub s16 y16) &&& 0x07)
      else
        controlSpritePatternTableAddress p.registers.control |||
          ((oam.tile_index <<< 4) % 65536) |||
          (u16WrapSub 7 (u16WrapSub s16 y16) &&& 0x07)

/-- Helper for the dot-340 sprite pattern fetch: process staged sprites
from slot `idx` on, loading each slot's pattern shifters. -/
def PPU.spriteFetchWalk (p : PPU) : List Oam → Nat → (Nat → Nat) → (Nat → Nat) →
    Option ((Nat → Nat) × (Nat → Nat))
  | [], _, lo, hi => some (lo, hi)
  | oam :: rest, idx, lo, hi => do
    let addr_lo := p.spriteFetchAddrLo oam
    let addr_hi := (addr_lo + 8) % 65536
    let bits_lo ← p.ppu_read addr_lo
    let bits_hi ← p.ppu_read addr_hi
    let bits_lo := if oam.flip_horizontal then flipbyte bits_lo else bits_lo
    let bits_hi := if oam.flip_horizontal then flipbyte bits_hi else bits_hi
    let lo := fun i => if i = idx then bits_lo else lo i
    let hi := fun i => if i = idx then bits_hi else hi i
    PPU.spriteFetchWalk p rest (idx + 1) lo hi

/-- Translation of the dot-340 sprite pattern fetch (lib.rs lines 341-407). -/
def PPU.spriteFetch (p : PPU) : Option PPU := do
  let st ← PPU.spriteFetchWalk p p.sprite_scanline 0
    p.sprite_shifter_pattern_lo p.sprite_shifter_pattern_hi
  return { p with sprite_shifter_pattern_lo := st.1,
                  sprite_shifter_pattern_hi := st.2 }

/-- Translation of the visible/pre-render scanline block of the tick body
(lib.rs lines 219-408), in source order: odd-frame skip, pre-render
clear, fetch pipeline, scroll increments and transfers, tile prefetch,
sprite evaluation and sprite pattern fetch. -/
def PPU.visibleDot (p : PPU) : Option PPU := do
  let p := if p.scanline = 0 ∧ p.cycles = 0 then { p with cycles := 1 } else p
  let p := if p.scanline = -1 ∧ p.cycles = 1 then p.clearForPreRender else p
  let p ←
    if (2 ≤ p.cycles ∧ p.cycles < 258) ∨ (321 ≤ p.cycles ∧ p.cycles < 338) then
      (p.update_shifters).fetchGroup
    else some p
  let p := if p.cycles = 256 then p.increment_scroll_y else p
  let p := if p.cycles = 257 then (p.load_background_shifters).transfer_address_x else p
  let p ← if p.cycles = 338 ∨ p.cycles = 340 then p.prefetchTileId else some p
  let p :=
    if p.scanline = -1 ∧ 280 ≤ p.cycles ∧ p.cycles < 305 then p.transfer_address_y
    else p
  let p := if p.cycles = 257 ∧ 0 ≤ p.scanline then p.spriteEval else p
  if p.cycles = 340 then p.spriteFetch else some p

/-- Translation of the vblank-start block (lib.rs lines 414-423): at
`(241, 1)` set the vblank status and, when NMI generation is enabled,
record the pending interrupt and report the frame complete. -/
def PPU.vblankDot (p : PPU) : PPU × Bool :=
  if 241 ≤ p.scanline ∧ p.scanline < 261 then
    if p.scanline = 241 ∧ p.cycles = 1 then
      let p := { p with registers :=
        { p.registers with status := statusSetVblank p.registers.status true } }
      if controlGenerateVblankNmi p.registers.control then
        ({ p with nmi_interrupt := some 1 }, true)
      else (p, false)
    else (p, false)
  else (p, false)

/-- Translation of the background pixel computation (lib.rs lines 425-440). -/
def PPU.backgroundPixel (p : PPU) : Nat × Nat :=
  if maskShowBackground p.registers.mask then
    let bit_mux := 0x8000 >>> p.fine_x
    let p0 := if 0 < p.bg_shifter_pattern_lo &&& bit_mux then 1 else 0
    let p1 := if 0 < p.bg_shifter_pattern_hi &&& bit_mux then 1 else 0
    let pal0 := if 0 < p.bg_shifter_attrib_lo &&& bit_mux then 1 else 0
    let pal1 := if 0 < p.bg_shifter_attrib_hi &&& bit_mux then 1 else 0
    ((p1 <<< 1) ||| p0, (pal1 <<< 1) ||| pal0)
  else (0, 0)

/-- Helper for the foreground pixel scan (lib.rs lines 446-462): examine
staged sprites left to right; every sprite with `tile_x == 0` overwrites
the candidate pixel, and the scan stops at the first non-transparent one.
Note the source takes `shifter & (0x80 >> 7)`, i.e. the low bit. -/
def PPU.fgScan (shLo shHi : Nat → Nat) : List Oam → Nat → Nat × Nat × Bool →
    Nat × Nat × Bool
  | [], _, acc => acc
  | oam :: rest, idx, acc =>
    if oam.tile_x = 0 then
      let lo := shLo idx &&& (0x80 >>> 7)
      let hi := shHi idx &&& (0x80 >>> 7)
      let px := (hi <<< 1) ||| lo
      let acc := (px, (oam.palette_index + 0x04, oam.priority_in_front_of_background))
      if px ≠ 0 then acc
      else PPU.fgScan shLo shHi rest (idx + 1) acc
    else PPU.fgScan shLo shHi rest (idx + 1) acc

/-- Translation of the foreground pixel computation (lib.rs lines 442-462). -/
def PPU.foregroundPixel (p : PPU) : Nat × Nat × Bool :=
  if maskShowSprites p.registers.mask then
    PPU.fgScan p.sprite_shifter_pattern_lo p.sprite_shifter_pattern_hi
      p.sprite_scanline 0 (0, 0, false)
  else (0, 0, false)

/-- Modelled from the spec: the fixed 64-entry system palette
(`SYSTEM_PALLETE`, src/ppu/src/palette.rs is absent from the snapshot).
The concrete RGB values play no role in any claim, so the table is left
as the constant black triple. -/
def SYSTEM_PALLETE : Nat → Nat × Nat × Nat := fun _ => (0, 0, 0)

/-- Translation of `PPU::get_color_from_palette_ram` (lib.rs lines 497-500);
`palette << 2` is a u8 shift and wraps at 256. -/
def PPU.get_color_from_palette_ram (p : PPU) (pixel palette : Nat) :
    Option (Nat × Nat × Nat) := do
  let v ← p.ppu_read ((0x3F00 + (palette <<< 2) % 256 + pixel) % 65536)
  return SYSTEM_PALLETE (v &&& 0x3F)

/-- Translation of `PPU::set_pixel` (lib.rs lines 502-514): bounds-checked
write of an RGB triple into the frame buffer. -/
def PPU.set_pixel (p : PPU) (x y : Nat) (rgb : Nat × Nat × Nat) : PPU :=
  if 256 ≤ x then p
  else if 240 ≤ y then p
  else
    let base := y * (256 * 3) + x * 3
    { p with frame := fun i =>
        if i = base then rgb.1
        else if i = base + 1 then rgb.2.1
        else if i = base + 2 then rgb.2.2
        else p.frame i }

/-- Translation of the per-dot pixel composition and frame-buffer write
(lib.rs lines 425-479): classic background/sprite priority resolution,
palette lookup, and the bounds-checked pixel write at
`(cycles.wrapping_sub(1), scanline as usize)`. -/
def PPU.pixelDot (p : PPU) : Option PPU := do
  let bg := p.backgroundPixel
  let fg := p.foregroundPixel
  let px :=
    if bg.1 = 0 ∧ fg.1 = 0 then (0x00, 0x00)
    else if bg.1 = 0 ∧ 0 < fg.1 then (fg.1, fg.2.1)
    else if 0 < bg.1 ∧ fg.1 = 0 then (bg.1, bg.2)
    else if fg.2.2 then (fg.1, fg.2.1)
    else (bg.1, bg.2)
  let rgb ← p.get_color_from_palette_ram px.1 px.2
  return p.set_pixel (usizeWrapSub p.cycles 1) (i16AsUsize p.scanline) rgb

/-- Translation of the renderer advance (lib.rs lines 481-491): step the
dot counter, wrap to the next scanline at 341 dots, and at scanline 261
clear the frame, wrap to the pre-render scanline `-1` and report the
frame complete. -/
def PPU.advanceDot (p : PPU) : PPU × Bool :=
  let p := { p with cycles := p.cycles + 1 }
  if 341 ≤ p.cycles then
    let p := { p with cycles := 0, scanline := p.scanline + 1 }
    if 261 ≤ p.scanline then
      ({ p with frame := fun _ => 0, scanline := -1 }, true)
    else (p, false)
  else (p, false)

/-- One dot of `PPU::tick` (one iteration of the `for` loop in lib.rs
lines 218-492), returning the new state and whether this dot set
`frame_complete`. -/
def PPU.tickOne (p : PPU) : Option (PPU × Bool) := do
  let p ←
    if -1 ≤ p.scanline ∧ p.scanline < 240 then p.visibleDot else some p
  let vb := p.vblankDot
  let p ← vb.1.pixelDot
  let adv := p.advanceDot
  return (adv.1, vb.2 || adv.2)

/-- Translation of `PPU::tick`: advance `n` dots, reporting whether any
of them completed a frame (the `frame_complete` flag is sticky across
the loop). -/
def PPU.tick (p : PPU) : Nat → Option (PPU × Bool)
  | 0 => some (p, false)
  | n + 1 => do
    let st ← p.tickOne
    let rest ← st.1.tick n
    return (rest.1, st.2 || rest.2)

/-- Drive the PPU one dot at a time for `n` dots, counting how many dots
reported a completed frame. -/
def PPU.run (p : PPU) : Nat → Option (PPU × Nat)
  | 0 => some (p, 0)
  | n + 1 => do
    let st ← p.tickOne
    let rest ← st.1.run n
    return (rest.1, (if st.2 then 1 else 0) + rest.2)

/-- Regrouping of the first block of `PPU.visibleDot` (odd-frame skip and
pre-render clear) used to structure the proofs; `visibleDot_stages` below
shows the regrouped pipeline is definitionally the same function. -/
def stageA (p : PPU) : PPU :=
  let p := if p.scanline = 0 ∧ p.cycles = 0 then { p with cycles := 1 } else p
  if p.scanline = -1 ∧ p.cycles = 1 then p.clearForPreRender else p

/-- Regrouping of the fetch-window block of `PPU.visibleDot`. -/
def stageB (p : PPU) : Option PPU :=
  if (2 ≤ p.cycles ∧ p.cycles < 258) ∨ (321 ≤ p.cycles ∧ p.cycles < 338) then
    (p.update_shifters).fetchGroup
  else some p

/-- Regrouping of the scroll-increment and horizontal-transfer block of
`PPU.visibleDot`. -/
def stageC (p : PPU) : PPU :=
  let p := if p.cycles = 256 then p.increment_scroll_y else p
  if p.cycles = 257 then (p.load_background_shifters).transfer_address_x else p

/-- Regrouping of the garbage-nametable prefetch block of `PPU.visibleDot`. -/
def stageD (p : PPU) : Option PPU :=
  if p.cycles = 338 ∨ p.cycles = 340 then p.prefetchTileId else some p

/-- Regrouping of the vertical-transfer and sprite-evaluation block of
`PPU.visibleDot`. -/
def stageE (p : PPU) : PPU :=
  let p :=
    if p.scanline = -1 ∧ 280 ≤ p.cycles ∧ p.cycles < 305 then p.transfer_address_y
    else p
  if p.cycles = 257 ∧ 0 ≤ p.scanline then p.spriteEval else p

/-- Regrouping of the sprite pattern-fetch block of `PPU.visibleDot`. -/
def stageF (p : PPU) : Option PPU :=
  if p.cycles = 340 then p.spriteFetch else some p

/-! ## Bus (src/emulator/src/bus.rs)

The address-dispatching `Mem` implementation over work RAM, the PPU
register window with its mirrors, the APU stub, the joypads and
cartridge PRG ROM.  The per-frame `gameloop_callback` and `Bus::tick`
are not needed by any claim and are not embedded. -/

/-- Cartridge ROM as the bus uses it: the PRG image, with its length in
bytes kept explicitly for the 16-KiB mirroring test. -/
structure Rom where
  prg_len : Nat
  prg : Nat → Nat

/-- The bus state (`Bus` in emulator/src/bus.rs, without the embedder
callback). -/
structure Bus where
  cpu_vram : Nat → Nat
  ppu : PPU
  rom : Option Rom
  joypad1 : Joypad
  cycles : Nat

/-- Translation of `Bus::new`: empty RAM, no cartridge, fresh joypad. -/
def Bus.new (ppu : PPU) : Bus :=
  { cpu_vram := fun _ => 0, ppu := ppu, rom := none,
    joypad1 := Joypad.new, cycles := 0 }

/-- Translation of `Bus::read_prg_rom`: map `$8000-$FFFF` into the PRG
image, mirroring a 16-KiB image across the 32-KiB window; without a
cartridge the read returns `0xFF`. -/
def Bus.read_prg_rom (b : Bus) (addr : Nat) : Nat :=
  match b.rom with
  | some rom =>
    let a := addr - 0x8000
    let a := if rom.prg_len = 0x4000 ∧ 0x4000 ≤ a then a % 0x4000 else a
    rom.prg a
  | none => 0xFF

/-- Translation of the bus `Mem::mem_read` (bus.rs lines 118-141), in
source arm order: mirrored RAM, PPU registers, PPU register mirrors
(a recursive read at `addr & 0x2007`), the APU stub range reading
`0xFF`, the joypads, PRG ROM, and a warned-and-ignored default
returning 0. -/
def Bus.mem_read (b : Bus) (addr : Nat) : Option (Nat × Bus) :=
  if addr ≤ 0x1FFF then
    some (b.cpu_vram (addr &&& 0x7FF), b)
  else if 0x2000 ≤ addr ∧ addr ≤ 0x2007 then do
    let st ← b.ppu.mem_read addr
    return (st.1, { b with ppu := st.2 })
  else if 0x2008 ≤ addr ∧ addr ≤ 0x3FFF then
    b.mem_read (addr &&& 0x2007)
  else if 0x4000 ≤ addr ∧ addr ≤ 0x4015 then
    some (0xFF, b)
  else if addr = 0x4016 then
    let st := b.joypad1.read
    some (st.1, { b with joypad1 := st.2 })
  else if addr = 0x4017 then
    some (0x00, b)
  else if 0x8000 ≤ addr ∧ addr ≤ 0xFFFF then
    some (b.read_prg_rom addr, b)
  else
    some (0x00, b)
termination_by addr
decreasing_by
  exact lt_of_le_of_lt (Nat.and_le_right) (by omega)

/-- The OAM-DMA transfer loop (bus.rs lines 156-163): 256 sequential bus
reads of the DMA page, threading any state changes those reads make. -/
def Bus.dmaLoop (hi : Nat) : List Nat → Bus → Option (List Nat × Bus)
  | [], b => some ([], b)
  | i :: rest, b => do
    let st ← b.mem_read ((hi + i) % 65536)
    let more ← Bus.dmaLoop hi rest st.2
    return (st.1 :: more.1, more.2)

/-- Translation of the bus `Mem::mem_write` (bus.rs lines 143-177), in
source arm order: mirrored RAM, PPU registers, the OAM-DMA trigger at
`$4014` (256 reads then a bulk OAM write), PPU register mirrors
(recursive write at `addr & 0x2007`), the ignored APU ranges, the
joypads, the fatal write into cartridge ROM space
(`panic!("Attempt to write to Cartridge ROM space")`, i.e. `none`),
and a warned-and-ignored default. -/
def Bus.mem_write (b : Bus) (addr value : Nat) : Option Bus :=
  if addr ≤ 0x1FFF then
    some { b with cpu_vram :=
      fun i => if i = (addr &&& 0x7FF) then value else b.cpu_vram i }
  else if 0x2000 ≤ addr ∧ addr ≤ 0x2007 then do
    let ppu ← b.ppu.mem_write addr value
    return { b with ppu := ppu }
  else if addr = 0x4014 then do
    let hi := (value <<< 8) % 65536
    let st ← Bus.dmaLoop hi (List.range 256) b
    let b := st.2
    return { b with ppu := b.ppu.write_oam_dma st.1 }
  else if 0x2008 ≤ addr ∧ addr ≤ 0x3FFF then
    b.mem_write (addr &&& 0x2007) value
  else if (0x4000 ≤ addr ∧ addr ≤ 0x4013) ∨ addr = 0x4015 then
    some b
  else if addr = 0x4016 then
    some { b with joypad1 := b.joypad1.write value }
  else if addr = 0x4017 then
    some b
  else if 0x8000 ≤ addr ∧ addr ≤ 0xFFFF then
    none
  else
    some b
termination_by addr
decreasing_by
  exact lt_of_le_of_lt (Nat.and_le_right) (by omega)

/-! ## Auxiliary fixtures and abstractions used by the theorems -/

/-- Memory holding a branch instruction whose displacement byte (at the
operand address 1) is `0xFF`, i.e. −1. -/
def branchBugMemory : Nat → Nat := fun a => if a = 1 then 0xFF else 0

/-- Memory holding an ordinary forward branch displacement `0x10` at the
operand address `$0601`. -/
def branchWitnessMemory : Nat → Nat := fun a => if a = 0x0601 then 0x10 else 0

/-- An all-zero sprite descriptor (what `Oam::new` yields on zero bytes). -/
def zeroOam : Oam := Oam.new 0 0 0 0

/-- Counter-level abstraction of one PPU dot for a machine whose control
register never has NMI generation enabled: the scanline/dot evolution of
`PPU.tickOne` together with its `frame_complete` contribution. -/
def dotCounterStep (s : Int) (c : Nat) : (Int × Nat) × Bool :=
  let c := if s = 0 ∧ c = 0 then 1 else c
  let c := c + 1
  if 341 ≤ c then
    if 261 ≤ s + 1 then ((-1, 0), true) else ((s + 1, 0), false)
  else ((s, c), false)

/-- Iterated counter abstraction, accumulating the number of dots that
reported a completed frame. -/
def dotCounterRun : Nat → (Int × Nat) × Nat → (Int × Nat) × Nat
  | 0, st => st
  | n + 1, st =>
    let d := dotCounterStep st.1.1 st.1.2
    dotCounterRun n (d.1, st.2 + (if d.2 then 1 else 0))

/-- Well-formedness of a loopy register: every sub-field fits its mask
(maintained by all setters). -/
def LoopyWF (l : LoopyRegister) : Prop :=
  l.coarse_x < 32 ∧ l.coarse_y < 32 ∧ l.nametable_x < 2 ∧
    l.nametable_y < 2 ∧ l.fine_y < 8

/-- Byte-sizedness of the PPU stores feeding fetch addresses. -/
def PPU.BytesOK (p : PPU) : Prop :=
  (∀ a, p.chr_rom a < 256) ∧ (∀ a, p.vram a < 256) ∧
    (∀ a, p.palette_table a < 256) ∧ p.bg_next_tile_id < 256

/-- Discipline of the staged-sprite list during a run with an all-zero
OAM and a zero control register: the list is empty, or it holds only
zero sprites, it was staged on a scanline in `0..8` and is cleared by
the dot-257 evaluation of scanline 8 before the dot-340 fetch. -/
def PPU.SpriteOK (p : PPU) : Prop :=
  p.sprite_scanline = [] ∨
    (p.sprite_scanline.all (fun o => o = zeroOam) ∧ 0 ≤ p.scanline ∧
      p.scanline ≤ 8 ∧ (p.scanline = 8 → p.cycles ≤ 257))

/-- Invariant carried through the frame-cadence run: byte-sized stores,
a well-formed live loopy register, a zero control register, an all-zero
OAM and a disciplined staged-sprite list. -/
def PPU.Inv (p : PPU) : Prop :=
  p.BytesOK ∧ LoopyWF p.registers.vram_addr ∧ p.registers.control = 0 ∧
    p.oam_data = (fun _ => 0) ∧ p.SpriteOK

/-! # Theorems -/

/-! ## Flag-bit toolkit -/

theorem contains_pow (x i : Nat) : flagContains x (2 ^ i) = x.testBit i := by
  rw [flagContains, Nat.and_two_pow]
  cases h : x.testBit i
  · simp only [h, Bool.toNat_false, Nat.zero_mul, decide_eq_false_iff_not]
    exact (Nat.two_pow_pos i).ne
  · simp [h]

theorem testBit_znStatus_one (s v : Nat) : (znStatus s v).testBit 1 = (v == 0) := by
  have e1 : Nat.testBit 2 1 = true := by decide
  have e2 : Nat.testBit 128 1 = false := by decide
  have e3 : Nat.testBit 253 1 = false := by decide
  have e4 : Nat.testBit 127 1 = true := by decide
  unfold znStatus flagInsert flagRemove CpuFlags.ZERO CpuFlags.NEGATIVE
  by_cases h0 : v = 0 <;> by_cases h7 : v &&& 0x80 = 0 <;>
    simp [h0, h7, e1, e2, e3, e4]

theorem testBit_znStatus_seven (s v : Nat) :
    (znStatus s v).testBit 7 = (v &&& 0x80 != 0) := by
  have e1 : Nat.testBit 2 7 = false := by decide
  have e2 : Nat.testBit 128 7 = true := by decide
  have e3 : Nat.testBit 253 7 = true := by decide
  have e4 : Nat.testBit 127 7 = false := by decide
  unfold znStatus flagInsert flagRemove CpuFlags.ZERO CpuFlags.NEGATIVE
  by_cases h0 : v = 0 <;> by_cases h7 : v &&& 0x80 = 0 <;>
    simp [h0, h7, e1, e2, e3, e4]

theorem contains_zero_after (s v : Nat) :
    flagContains (znStatus s v) CpuFlags.ZERO = (v == 0) := by
  have h : CpuFlags.ZERO = 2 ^ 1 := by norm_num [CpuFlags.ZERO]
  rw [h, contains_pow, testBit_znStatus_one]

theorem contains_neg_after (s v : Nat) :
    flagContains (znStatus s v) CpuFlags.NEGATIVE = (v &&& 0x80 != 0) := by
  have h : CpuFlags.NEGATIVE = 2 ^ 7 := by norm_num [CpuFlags.NEGATIVE]
  rw [h, contains_pow, testBit_znStatus_seven]

theorem znStatus_on_self :
    ∀ v < 256, znStatus v v = if v = 0 then 2 else v &&& 0xFD := by decide

/-! ## C1: generic register writes to A/X/Y update the zero/negative flags -/

/-- C1: for every value `v` and every field among A, X and Y, after
`Register::write(field, v)` the zero flag equals `v == 0`, the negative
flag equals `(v & 0x80) != 0`, and the written field holds `v`.
(The claim speaks of 8-bit values; the property holds for all `v`.) -/
theorem c1_register_write_flag_invariant (r : Register) (v : Nat) :
    ((r.write .A v).read .A = v ∧ (r.write .A v).zeroFlag = (v == 0) ∧
      (r.write .A v).negativeFlag = (v &&& 0x80 != 0)) ∧
    ((r.write .X v).read .X = v ∧ (r.write .X v).zeroFlag = (v == 0) ∧
      (r.write .X v).negativeFlag = (v &&& 0x80 != 0)) ∧
    ((r.write .Y v).read .Y = v ∧ (r.write .Y v).zeroFlag = (v == 0) ∧
      (r.write .Y v).negativeFlag = (v &&& 0x80 != 0)) :=
  ⟨⟨rfl, contains_zero_after r.status v, contains_neg_after r.status v⟩,
   ⟨rfl, contains_zero_after r.status v, contains_neg_after r.status v⟩,
   ⟨rfl, contains_zero_after r.status v, contains_neg_after r.status v⟩⟩

/-! ## C2: writes to SP bypass flag recomputation, but writes to STATUS
do not -/

/-- C2 counterexample: writing `0x02` (just the zero-flag bit) through
`Register::write(STATUS, ·)` does not leave the status byte equal to
`0x02`: the write path recomputes the zero flag from the written value
`2 ≠ 0` and clears it, leaving `0x00`.  This refutes the claim that a
STATUS write bypasses flag recomputation. -/
theorem c2_status_write_not_bypassed :
    ((Register.new).write .STATUS 0x02).status ≠ 0x02 := by decide

/-- C2 (amended): `Register::write(SP, v)` leaves the status byte
untouched and stores `v` into SP, but `Register::write(STATUS, v)` first
sets the status byte to `v` and then recomputes the zero and negative
flags from `v` itself — the final status is `v` with the zero bit forced
to `v == 0` (i.e. `2` when `v = 0` and `v & 0xFD` otherwise) and the
negative bit forced to bit 7 of `v`, which that mask form already has. -/
theorem c2_sp_bypasses_status_recomputes (r : Register) (v : Nat) (hv : v < 256) :
    (r.write .SP v).status = r.status ∧ (r.write .SP v).sp = v ∧
    (r.write .STATUS v).status = (if v = 0 then 2 else v &&& 0xFD) :=
  ⟨rfl, rfl, znStatus_on_self v hv⟩

/-- C2 witness: the amended statement evaluated at the fresh register
file and `v = 0x90`. -/
theorem c2_sp_bypasses_status_recomputes_witness :
    (0x90 : Nat) < 256 ∧
    ((Register.new.write .SP 0x90).status = Register.new.status ∧
      (Register.new.write .SP 0x90).sp = 0x90 ∧
      (Register.new.write .STATUS 0x90).status =
        (if (0x90 : Nat) = 0 then 2 else 0x90 &&& 0xFD)) :=
  ⟨by decide, c2_sp_bypasses_status_recomputes Register.new 0x90 (by decide)⟩

/-! ## C3: SBC is ADC of the bitwise complement -/

theorem sbcOperand_eq_complement : ∀ x < 256, CPU.sbcOperand x = x ^^^ 0xFF := by
  decide

/-- C3: from any initial register state, executing the SBC arithmetic core
with operand `x` produces exactly the same accumulator and the same carry,
zero, overflow and negative flags as executing the ADC core with the
bitwise complement `x ^ 0xFF` — in fact the entire register files agree. -/
theorem c3_sbc_is_adc_of_complement (r : Register) (x : Nat) (hx : x < 256) :
    CPU.sbcOnOperand r x = CPU.adcOnOperand r (x ^^^ 0xFF) ∧
    (CPU.sbcOnOperand r x).read .A = (CPU.adcOnOperand r (x ^^^ 0xFF)).read .A ∧
    (CPU.sbcOnOperand r x).carryFlag = (CPU.adcOnOperand r (x ^^^ 0xFF)).carryFlag ∧
    (CPU.sbcOnOperand r x).zeroFlag = (CPU.adcOnOperand r (x ^^^ 0xFF)).zeroFlag ∧
    (CPU.sbcOnOperand r x).overflowFlag = (CPU.adcOnOperand r (x ^^^ 0xFF)).overflowFlag ∧
    (CPU.sbcOnOperand r x).negativeFlag = (CPU.adcOnOperand r (x ^^^ 0xFF)).negativeFlag := by
  have h : CPU.sbcOnOperand r x = CPU.adcOnOperand r (x ^^^ 0xFF) := by
    unfold CPU.sbcOnOperand CPU.adcOnOperand
    rw [sbcOperand_eq_complement x hx]
  exact ⟨h, by rw [h], by rw [h], by rw [h], by rw [h], by rw [h]⟩

/-- C3 witness: the complementarity applied at the fresh register file
and operand `0x37`. -/
theorem c3_sbc_is_adc_of_complement_witness :
    (0x37 : Nat) < 256 ∧
    (CPU.sbcOnOperand Register.new 0x37 = CPU.adcOnOperand Register.new (0x37 ^^^ 0xFF) ∧
      (CPU.sbcOnOperand Register.new 0x37).read .A =
        (CPU.adcOnOperand Register.new (0x37 ^^^ 0xFF)).read .A ∧
      (CPU.sbcOnOperand Register.new 0x37).carryFlag =
        (CPU.adcOnOperand Register.new (0x37 ^^^ 0xFF)).carryFlag ∧
      (CPU.sbcOnOperand Register.new 0x37).zeroFlag =
        (CPU.adcOnOperand Register.new (0x37 ^^^ 0xFF)).zeroFlag ∧
      (CPU.sbcOnOperand Register.new 0x37).overflowFlag =
        (CPU.adcOnOperand Register.new (0x37 ^^^ 0xFF)).overflowFlag ∧
      (CPU.sbcOnOperand Register.new 0x37).negativeFlag =
        (CPU.adcOnOperand Register.new (0x37 ^^^ 0xFF)).negativeFlag) :=
  ⟨by decide, c3_sbc_is_adc_of_complement Register.new 0x37 (by decide)⟩

/-! ## C5: the indirect-JMP page-boundary bug -/

/-- C5: with `$40` at `$3000`, `$80` at `$30FF` and `$50` at `$3100`,
executing `JMP ($30FF)` (pointer operand at `$0601`) sets the program
counter to `$4080` — the high byte comes from the start of the pointer's
page — and not to `$5080`. -/
theorem c5_jmp_indirect_page_bug :
    CPU.jmp_indirect jmpBugMemory 0x0601 = 0x4080 ∧
    CPU.jmp_indirect jmpBugMemory 0x0601 ≠ 0x5080 := by decide

/-! ## C4: branch timing and branch targets -/

theorem branchTick_not_taken (mem : Nat → Nat) (pc0 base : Nat) :
    (CPU.branchTick mem pc0 false base 2).cyclesAdded = base := by
  simp [CPU.branchTick]

theorem branchTick_taken (mem : Nat → Nat) (pc0 base : Nat)
    (hd : mem ((pc0 + 1) % 65536) < 256) :
    CPU.branchTick mem pc0 true base 2 =
      ⟨(if mem ((pc0 + 1) % 65536) = 0xFF
          then (specBranchTarget mem pc0 + 1) % 65536
          else specBranchTarget mem pc0),
        (if page_cross ((pc0 + 2) % 65536) (specBranchTarget mem pc0) then 2 else 1) + base⟩ := by
  have e1 : ((pc0 + 1) % 65536 + 1 + i8AsU16 (mem ((pc0 + 1) % 65536))) % 65536 =
      specBranchTarget mem pc0 := by
    unfold specBranchTarget
    omega
  have e2 : ((pc0 + 1) % 65536 + 1) % 65536 = (pc0 + 2) % 65536 := by omega
  have e3 : ((pc0 + 1) % 65536 = specBranchTarget mem pc0) ↔
      mem ((pc0 + 1) % 65536) = 0xFF := by
    unfold specBranchTarget i8AsU16
    split
    · constructor
      · intro h; omega
      · intro h; omega
    · constructor
      · intro h; omega
      · intro h; omega
  unfold CPU.branchTick
  simp only [if_true, e1, e2]
  by_cases hff : mem ((pc0 + 1) % 65536) = 0xFF
  · rw [if_pos (e3.mpr hff), if_pos hff]
  · rw [if_neg (fun h => hff (e3.mp h)), if_neg hff]

/-- C4 counterexample: a taken branch with displacement byte `0xFF` (−1)
targets the operand byte itself, which equals the post-fetch PC, so the
generic end-of-instruction advance fires and the final PC is the target
plus one — the claim's "PC is set to that target" fails (the cycle count
base+1 for this same-page taken branch is still as claimed). -/
theorem c4_branch_minus_one_misses_target :
    (CPU.branchTick branchBugMemory 0 true 2 2).pc ≠
      specBranchTarget branchBugMemory 0 ∧
    (CPU.branchTick branchBugMemory 0 true 2 2).pc = 2 ∧
    specBranchTarget branchBugMemory 0 = 1 ∧
    (CPU.branchTick branchBugMemory 0 true 2 2).cyclesAdded = 3 := by decide

/-- C4 (amended): for every branch opcode (modelled by its condition bit,
base cycle count and table length 2) and every displacement byte: a
not-taken branch adds exactly the base cycles; a taken branch adds base+1
cycles when the target shares the page of the PC after the operand byte
and base+2 cycles when it does not; a taken branch sets PC to the target
`PC_after_operand + displacement` — except when the displacement is −1
(byte `0xFF`), where the target equals the post-fetch PC, the generic
end-of-instruction advance fires, and PC ends at target+1. -/
theorem c4_branch_timing_and_target (mem : Nat → Nat) (pc0 base : Nat)
    (hd : mem ((pc0 + 1) % 65536) < 256) :
    ((CPU.branchTick mem pc0 false base 2).cyclesAdded = base) ∧
    (page_cross ((pc0 + 2) % 65536) (specBranchTarget mem pc0) = false →
      (CPU.branchTick mem pc0 true base 2).cyclesAdded = base + 1) ∧
    (page_cross ((pc0 + 2) % 65536) (specBranchTarget mem pc0) = true →
      (CPU.branchTick mem pc0 true base 2).cyclesAdded = base + 2) ∧
    (mem ((pc0 + 1) % 65536) ≠ 0xFF →
      (CPU.branchTick mem pc0 true base 2).pc = specBranchTarget mem pc0) ∧
    (mem ((pc0 + 1) % 65536) = 0xFF →
      (CPU.branchTick mem pc0 true base 2).pc =
        (specBranchTarget mem pc0 + 1) % 65536) := by
  have h := branchTick_taken mem pc0 base hd
  refine ⟨branchTick_not_taken mem pc0 base, ?_, ?_, ?_, ?_⟩
  · intro hpc
    rw [h]
    simp [hpc, Nat.add_comm]
  · intro hpc
    rw [h]
    simp [hpc, Nat.add_comm]
  · intro hff
    rw [h]
    simp [hff]
  · intro hff
    rw [h]
    simp [hff]

/-- C4 witness: the amended statement at a concrete taken branch
(displacement `0x10` at PC `0x0600`, base 2). -/
theorem c4_branch_timing_and_target_witness :
    branchWitnessMemory ((0x0600 + 1) % 65536) < 256 ∧
    (((CPU.branchTick branchWitnessMemory 0x0600 false 2 2).cyclesAdded = 2) ∧
      (page_cross ((0x0600 + 2) % 65536) (specBranchTarget branchWitnessMemory 0x0600) = false →
        (CPU.branchTick branchWitnessMemory 0x0600 true 2 2).cyclesAdded = 2 + 1) ∧
      (page_cross ((0x0600 + 2) % 65536) (specBranchTarget branchWitnessMemory 0x0600) = true →
        (CPU.branchTick branchWitnessMemory 0x0600 true 2 2).cyclesAdded = 2 + 2) ∧
      (branchWitnessMemory ((0x0600 + 1) % 65536) ≠ 0xFF →
        (CPU.branchTick branchWitnessMemory 0x0600 true 2 2).pc =
          specBranchTarget branchWitnessMemory 0x0600) ∧
      (branchWitnessMemory ((0x0600 + 1) % 65536) = 0xFF →
        (CPU.branchTick branchWitnessMemory 0x0600 true 2 2).pc =
          (specBranchTarget branchWitnessMemory 0x0600 + 1) % 65536)) :=
  ⟨by decide, c4_branch_timing_and_target branchWitnessMemory 0x0600 2 (by decide)⟩

/-! ## C8: the joypad register protocol -/

theorem joypad_arm_disarm (j : Joypad) :
    (j.write 1).write 0 = ⟨false, 0, j.button_status⟩ := rfl

theorem joypad_readSeq_lt8 : ∀ s < 256, ∀ k < 8,
    Joypad.readSeq ⟨false, 0, s⟩ k =
      (if flagContains s (joypadButtonOrder.getD k 0) then 1 else 0) ∧
    (Joypad.readIter ⟨false, 0, s⟩ (k + 1)).button_index = k + 1 := by decide

theorem joypad_readIter_eight : ∀ s < 256,
    Joypad.readIter ⟨false, 0, s⟩ 8 = ⟨false, 8, s⟩ := by decide

theorem joypad_read_past (j : Joypad) (h : 7 < j.button_index) :
    ∀ m, j.readSeq m = 1 := by
  intro m
  induction m with
  | zero => simp [Joypad.readSeq, Joypad.read, h]
  | succ m ih =>
    have hr : (j.read).2 = j := by simp [Joypad.read, h]
    show ((j.read).2).readSeq m = 1
    rw [hr]
    exact ih

theorem joypad_readSeq_add (j : Joypad) (a b : Nat) :
    j.readSeq (a + b) = (j.readIter a).readSeq b := by
  induction a generalizing j with
  | zero => rw [Nat.zero_add]; rfl
  | succ a ih =>
    have h : a + 1 + b = (a + b) + 1 := by omega
    rw [h]
    show ((j.read).2).readSeq (a + b) = _
    rw [ih]
    rfl

/-- C8: after arming the strobe (write bit 0 = 1, resetting the read
index) and disarming it (write bit 0 = 0), the `k`-th read (`k < 8`)
returns the state of the `k`-th button in the fixed order
A, B, Select, Start, Up, Down, Left, Right, and the read index advances
by one on each such read; every read past index 7 returns 1. -/
theorem c8_joypad_register_protocol (j : Joypad) (hs : j.button_status < 256)
    (k : Nat) :
    (k < 8 → ((j.write 1).write 0).readSeq k =
      (if flagContains j.button_status (joypadButtonOrder.getD k 0) then 1 else 0)) ∧
    (k < 8 → (((j.write 1).write 0).readIter (k + 1)).button_index = k + 1) ∧
    (8 ≤ k → ((j.write 1).write 0).readSeq k = 1) := by
  rw [joypad_arm_disarm]
  refine ⟨fun hk => ?_, fun hk => ?_, fun hk => ?_⟩
  · exact (joypad_readSeq_lt8 _ hs _ hk).1
  · exact (joypad_readSeq_lt8 _ hs _ hk).2
  · obtain ⟨m, rfl⟩ : ∃ m, k = 8 + m := ⟨k - 8, by omega⟩
    rw [joypad_readSeq_add, joypad_readIter_eight _ hs]
    exact joypad_read_past _ (by norm_num) m

/-- C8 witness: the protocol applied to a pad with B and Start pressed
(status `0x0A`, arbitrary stale index 3), at read number 1 (button B). -/
theorem c8_joypad_register_protocol_witness :
    (Joypad.mk false 3 0x0A).button_status < 256 ∧
    ((1 < 8 → (((Joypad.mk false 3 0x0A).write 1).write 0).readSeq 1 =
      (if flagContains (Joypad.mk false 3 0x0A).button_status
          (joypadButtonOrder.getD 1 0) then 1 else 0)) ∧
    (1 < 8 → ((((Joypad.mk false 3 0x0A).write 1).write 0).readIter (1 + 1)).button_index = 1 + 1) ∧
    (8 ≤ 1 → (((Joypad.mk false 3 0x0A).write 1).write 0).readSeq 1 = 1)) :=
  ⟨by decide, c8_joypad_register_protocol (Joypad.mk false 3 0x0A) (by decide) 1⟩

/-! ## C9: the 16-bit read/write round trip -/

theorem shift_recombine (v : Nat) (hv : v < 65536) :
    ((v >>> 8) <<< 8) ||| (v &&& 0xFF) = v := by
  have h1 : v &&& 0xFF = v % 256 := by
    have h := Nat.and_pow_two_sub_one_eq_mod v 8
    norm_num at h
    exact h
  have h2 : v >>> 8 = v / 256 := by
    rw [Nat.shiftRight_eq_div_pow]
  have h3 : (v / 256) <<< 8 = 2 ^ 8 * (v / 256) := by
    rw [Nat.shiftLeft_eq]
    ring
  have h4 : 2 ^ 8 * (v / 256) + v % 256 = 2 ^ 8 * (v / 256) ||| v % 256 :=
    Nat.mul_add_lt_is_or (by omega) _
  rw [h1, h2, h3, ← h4]
  omega

/-- C9: over any memory type whose byte read returns the last byte
written at each address, `mem_write_u16` followed by `mem_read_u16` at
the same address returns the written 16-bit value, for every address
(including the wraparound pair at `$FFFF`/`$0000`): the low byte is
stored at `addr`, the high byte at `addr` wrapping-incremented by one,
and the read reassembles them little-endian. -/
theorem c9_u16_round_trip {σ : Type} (read : σ → Nat → Nat)
    (write : σ → Nat → Nat → σ)
    (hlast : ∀ s a v, read (write s a v) a = v)
    (hother : ∀ s a b v, b ≠ a → read (write s a v) b = read s b)
    (s : σ) (addr value : Nat) (ha : addr < 65536) (hv : value < 65536) :
    Mem.read_u16 read (Mem.write_u16 write s addr value) addr = value := by
  have hne : addr ≠ (addr + 1) % 65536 := by omega
  unfold Mem.read_u16 Mem.write_u16
  rw [hlast, hother _ _ _ _ hne, hlast]
  exact shift_recombine value hv

/-! ## C6 toolkit: phase analysis of the PPU tick -/

/-- Fields of the PPU that no in-dot phase (between the odd-frame skip
and the renderer advance) modifies and on which the frame cadence and
the run invariant depend. -/
def PhaseCore (p q : PPU) : Prop :=
  q.scanline = p.scanline ∧ q.cycles = p.cycles ∧
  q.registers.control = p.registers.control ∧
  q.oam_data = p.oam_data ∧ q.chr_rom = p.chr_rom ∧
  q.vram = p.vram ∧ q.palette_table = p.palette_table

theorem phaseCore_refl (p : PPU) : PhaseCore p p :=
  ⟨rfl, rfl, rfl, rfl, rfl, rfl, rfl⟩

theorem phaseCore_trans {p q r : PPU} (h1 : PhaseCore p q) (h2 : PhaseCore q r) :
    PhaseCore p r := by
  obtain ⟨a1, b1, c1, d1, e1, f1, g1⟩ := h1
  obtain ⟨a2, b2, c2, d2, e2, f2, g2⟩ := h2
  exact ⟨a2.trans a1, b2.trans b1, c2.trans c1, d2.trans d1,
    e2.trans e1, f2.trans f1, g2.trans g1⟩

theorem set_coarse_x_wf (l : LoopyRegister) (v : Nat) (h : LoopyWF l) :
    LoopyWF (l.set_coarse_x v) := by
  obtain ⟨h1, h2, h3, h4, h5⟩ := h
  have : v &&& 0x1F ≤ 0x1F := Nat.and_le_right
  exact ⟨by simpa [LoopyRegister.set_coarse_x] using by omega, h2, h3, h4, h5⟩

theorem set_coarse_y_wf (l : LoopyRegister) (v : Nat) (h : LoopyWF l) :
    LoopyWF (l.set_coarse_y v) := by
  obtain ⟨h1, h2, h3, h4, h5⟩ := h
  have : v &&& 0x1F ≤ 0x1F := Nat.and_le_right
  exact ⟨h1, by simpa [LoopyRegister.set_coarse_y] using by omega, h3, h4, h5⟩

theorem set_nametable_x_wf (l : LoopyRegister) (v : Nat) (h : LoopyWF l) :
    LoopyWF (l.set_nametable_x v) := by
  obtain ⟨h1, h2, h3, h4, h5⟩ := h
  have : v &&& 0x01 ≤ 0x01 := Nat.and_le_right
  exact ⟨h1, h2, by simpa [LoopyRegister.set_nametable_x] using by omega, h4, h5⟩

theorem set_nametable_y_wf (l : LoopyRegister) (v : Nat) (h : LoopyWF l) :
    LoopyWF (l.set_nametable_y v) := by
  obtain ⟨h1, h2, h3, h4, h5⟩ := h
  have : v &&& 0x01 ≤ 0x01 := Nat.and_le_right
  exact ⟨h1, h2, h3, by simpa [LoopyRegister.set_nametable_y] using by omega, h5⟩

theorem set_fine_y_wf (l : LoopyRegister) (v : Nat) (h : LoopyWF l) :
    LoopyWF (l.set_fine_y v) := by
  obtain ⟨h1, h2, h3, h4, h5⟩ := h
  have : v &&& 0x07 ≤ 0x07 := Nat.and_le_right
  exact ⟨h1, h2, h3, h4, by simpa [LoopyRegister.set_fine_y] using by omega⟩

theorem increment_scroll_x_phase (p : PPU) :
    PhaseCore p p.increment_scroll_x ∧
    p.increment_scroll_x.bg_next_tile_id = p.bg_next_tile_id ∧
    p.increment_scroll_x.sprite_scanline = p.sprite_scanline ∧
    (LoopyWF p.registers.vram_addr →
      LoopyWF p.increment_scroll_x.registers.vram_addr) := by
  unfold PPU.increment_scroll_x
  split
  · split
    · exact ⟨phaseCore_refl _, rfl, rfl,
        fun h => set_nametable_x_wf _ _ (set_coarse_x_wf _ _ h)⟩
    · exact ⟨phaseCore_refl _, rfl, rfl, fun h => set_coarse_x_wf _ _ h⟩
  · exact ⟨phaseCore_refl _, rfl, rfl, fun h => h⟩

theorem increment_scroll_y_phase (p : PPU) :
    PhaseCore p p.increment_scroll_y ∧
    p.increment_scroll_y.bg_next_tile_id = p.bg_next_tile_id ∧
    p.increment_scroll_y.sprite_scanline = p.sprite_scanline ∧
    (LoopyWF p.registers.vram_addr →
      LoopyWF p.increment_scroll_y.registers.vram_addr) := by
  unfold PPU.increment_scroll_y
  split
  · split
    · exact ⟨phaseCore_refl _, rfl, rfl, fun h => set_fine_y_wf _ _ h⟩
    · dsimp only
      refine ⟨⟨rfl, rfl, rfl, rfl, rfl, rfl, rfl⟩, rfl, rfl, fun h => ?_⟩
      have hv := set_fine_y_wf p.registers.vram_addr 0 h
      show LoopyWF _
      split
      · exact set_nametable_y_wf _ _ (set_coarse_y_wf _ _ hv)
      · split
        · exact set_coarse_y_wf _ _ hv
        · exact set_coarse_y_wf _ _ hv
  · exact ⟨phaseCore_refl _, rfl, rfl, fun h => h⟩

theorem transfer_address_x_phase (p : PPU) :
    PhaseCore p p.transfer_address_x ∧
    p.transfer_address_x.bg_next_tile_id = p.bg_next_tile_id ∧
    p.transfer_address_x.sprite_scanline = p.sprite_scanline ∧
    (LoopyWF p.registers.vram_addr →
      LoopyWF p.transfer_address_x.registers.vram_addr) := by
  unfold PPU.transfer_address_x
  split
  · exact ⟨phaseCore_refl _, rfl, rfl,
      fun h => set_coarse_x_wf _ _ (set_nametable_x_wf _ _ h)⟩
  · exact ⟨phaseCore_refl _, rfl, rfl, fun h => h⟩

theorem transfer_address_y_phase (p : PPU) :
    PhaseCore p p.transfer_address_y ∧
    p.transfer_address_y.bg_next_tile_id = p.bg_next_tile_id ∧
    p.transfer_address_y.sprite_scanline = p.sprite_scanline ∧
    (LoopyWF p.registers.vram_addr →
      LoopyWF p.transfer_address_y.registers.vram_addr) := by
  unfold PPU.transfer_address_y
  split
  · exact ⟨phaseCore_refl _, rfl, rfl,
      fun h => set_coarse_y_wf _ _ (set_nametable_y_wf _ _ (set_fine_y_wf _ _ h))⟩
  · exact ⟨phaseCore_refl _, rfl, rfl, fun h => h⟩

theorem load_background_shifters_phase (p : PPU) :
    PhaseCore p p.load_background_shifters ∧
    p.load_background_shifters.bg_next_tile_id = p.bg_next_tile_id ∧
    p.load_background_shifters.sprite_scanline = p.sprite_scanline ∧
    p.load_background_shifters.registers = p.registers :=
  ⟨phaseCore_refl _, rfl, rfl, rfl⟩

theorem clearForPreRender_phase (p : PPU) :
    PhaseCore p p.clearForPreRender ∧
    p.clearForPreRender.bg_next_tile_id = p.bg_next_tile_id ∧
    p.clearForPreRender.sprite_scanline = p.sprite_scanline ∧
    p.clearForPreRender.registers.vram_addr = p.registers.vram_addr :=
  ⟨⟨rfl, rfl, rfl, rfl, rfl, rfl, rfl⟩, rfl, rfl, rfl⟩

end NES

namespace NES

/-! Continuing the C6 toolkit: the sprite-walk and fetch phases. -/

theorem spriteShiftWalk_zero_list :
    ∀ (l : List Oam) (idx : Nat) (lo hi : Nat → Nat),
      (∀ o ∈ l, o = zeroOam) →
      (PPU.spriteShiftWalk l idx lo hi).1 = l := by
  intro l
  induction l with
  | nil => intro idx lo hi _; rfl
  | cons o rest ih =>
    intro idx lo hi hz
    have ho : o = zeroOam := hz o (by simp)
    have hx : ¬ 0 < o.tile_x := by
      rw [ho]
      decide
    unfold PPU.spriteShiftWalk
    rw [if_neg hx]
    simp only
    rw [ih _ _ _ (fun x hx2 => hz x (by simp [hx2]))]

theorem update_shifters_phase (p : PPU)
    (hz : ∀ o ∈ p.sprite_scanline, o = zeroOam) :
    PhaseCore p p.update_shifters ∧
    p.update_shifters.bg_next_tile_id = p.bg_next_tile_id ∧
    p.update_shifters.sprite_scanline = p.sprite_scanline ∧
    p.update_shifters.registers = p.registers := by
  unfold PPU.update_shifters
  split
  · dsimp only
    split
    · refine ⟨⟨rfl, rfl, rfl, rfl, rfl, rfl, rfl⟩, rfl, ?_, rfl⟩
      exact spriteShiftWalk_zero_list _ _ _ _ hz
    · exact ⟨⟨rfl, rfl, rfl, rfl, rfl, rfl, rfl⟩, rfl, rfl, rfl⟩
  · dsimp only
    split
    · refine ⟨⟨rfl, rfl, rfl, rfl, rfl, rfl, rfl⟩, rfl, ?_, rfl⟩
      exact spriteShiftWalk_zero_list _ _ _ _ hz
    · exact ⟨phaseCore_refl _, rfl, rfl, rfl⟩

theorem ppu_read_some_of_le (p : PPU) (addr : Nat) (h : addr ≤ 0x3FFF) :
    ∃ v, p.ppu_read addr = some v := by
  unfold PPU.ppu_read
  split
  · exact ⟨_, rfl⟩
  · split
    · exact ⟨_, rfl⟩
    · split
      · exact ⟨_, rfl⟩
      · omega

theorem ppu_read_lt (p : PPU) (addr v : Nat)
    (h1 : ∀ a, p.chr_rom a < 256) (h2 : ∀ a, p.vram a < 256)
    (h3 : ∀ a, p.palette_table a < 256)
    (h : p.ppu_read addr = some v) : v < 256 := by
  unfold PPU.ppu_read at h
  split at h
  · cases h
    exact h1 _
  · split at h
    · cases h
      exact h2 _
    · split at h
      · cases h
        exact lt_of_le_of_lt Nat.and_le_left (h3 _)
      · cases h

theorem shiftLeft_le_bound (x k b : Nat) (h : x ≤ b) : x <<< k ≤ b * 2 ^ k := by
  rw [Nat.shiftLeft_eq]
  exact Nat.mul_le_mul_right _ h

theorem tile_fetch_addr_le (x : Nat) : 0x2000 ||| (x &&& 0x0FFF) ≤ 0x3FFF := by
  have h1 : x &&& 0x0FFF ≤ 0x0FFF := Nat.and_le_right
  have h2 : (0x2000 : Nat) ||| (x &&& 0x0FFF) < 2 ^ 14 :=
    Nat.or_lt_two_pow (by norm_num) (by omega)
  omega

theorem attrib_fetch_addr_le (p : PPU) (hWF : LoopyWF p.registers.vram_addr) :
    0x23C0 ||| (p.registers.vram_addr.nametable_y <<< 11) |||
      (p.registers.vram_addr.nametable_x <<< 10) |||
      ((p.registers.vram_addr.coarse_y >>> 2) <<< 3) |||
      (p.registers.vram_addr.coarse_x >>> 2) ≤ 0x3FFF := by
  obtain ⟨hcx, hcy, hnx, hny, hfy⟩ := hWF
  have b1 : p.registers.vram_addr.nametable_y <<< 11 ≤ 1 * 2 ^ 11 :=
    shiftLeft_le_bound _ _ _ (by omega)
  have b2 : p.registers.vram_addr.nametable_x <<< 10 ≤ 1 * 2 ^ 10 :=
    shiftLeft_le_bound _ _ _ (by omega)
  have b3 : (p.registers.vram_addr.coarse_y >>> 2) <<< 3 ≤ 7 * 2 ^ 3 := by
    refine shiftLeft_le_bound _ _ _ ?_
    rw [Nat.shiftRight_eq_div_pow]
    omega
  have b4 : p.registers.vram_addr.coarse_x >>> 2 ≤ 7 := by
    rw [Nat.shiftRight_eq_div_pow]
    omega
  have h14 : (0x23C0 : Nat) ||| (p.registers.vram_addr.nametable_y <<< 11) |||
      (p.registers.vram_addr.nametable_x <<< 10) |||
      ((p.registers.vram_addr.coarse_y >>> 2) <<< 3) |||
      (p.registers.vram_addr.coarse_x >>> 2) < 2 ^ 14 := by
    refine Nat.or_lt_two_pow (Nat.or_lt_two_pow (Nat.or_lt_two_pow
      (Nat.or_lt_two_pow (by norm_num) (by omega)) (by omega)) (by omega)) (by omega)
  omega

theorem pattern_fetch_addr_le (b id fy : Nat) (hid : id < 256) (hfy : fy ≤ 15)
    (hb : b ≤ 1) :
    ((b <<< 12) + ((id <<< 4) % 65536)) % 65536 + fy ≤ 0x3FFE := by
  have h1 : b <<< 12 ≤ 1 * 2 ^ 12 := shiftLeft_le_bound _ _ _ hb
  have h2 : id <<< 4 ≤ 255 * 2 ^ 4 := shiftLeft_le_bound _ _ _ (by omega)
  omega

theorem fetchGroup_phase (p : PPU)
    (hB : p.BytesOK) (hWF : LoopyWF p.registers.vram_addr) :
    ∃ q, p.fetchGroup = some q ∧ PhaseCore p q ∧
      q.bg_next_tile_id < 256 ∧
      q.sprite_scanline = p.sprite_scanline ∧
      LoopyWF q.registers.vram_addr := by
  obtain ⟨h1, h2, h3, hid⟩ := hB
  unfold PPU.fetchGroup
  dsimp only
  split
  · obtain ⟨v, hv⟩ := ppu_read_some_of_le p.load_background_shifters
      (0x2000 ||| (p.load_background_shifters.registers.vram_addr.get_bits &&& 0x0FFF))
      (tile_fetch_addr_le _)
    refine ⟨_, by rw [hv]; rfl, by exact ⟨rfl, rfl, rfl, rfl, rfl, rfl, rfl⟩,
      by exact ppu_read_lt _ _ _ h1 h2 h3 hv, by rfl, by exact hWF⟩
  · split
    · obtain ⟨v, hv⟩ := ppu_read_some_of_le p
        (0x23C0 ||| (p.registers.vram_addr.nametable_y <<< 11) |||
          (p.registers.vram_addr.nametable_x <<< 10) |||
          ((p.registers.vram_addr.coarse_y >>> 2) <<< 3) |||
          (p.registers.vram_addr.coarse_x >>> 2)) (attrib_fetch_addr_le p hWF)
      refine ⟨_, by rw [hv]; rfl, by exact ⟨rfl, rfl, rfl, rfl, rfl, rfl, rfl⟩,
        by exact hid, by rfl, by exact hWF⟩
    · split
      · have hle : ((if flagContains p.registers.control
            ControlRegister.BACKGROUND_PATTERN_ADDR then 1 else 0) <<< 12 +
              ((p.bg_next_tile_id <<< 4) % 65536)) % 65536 +
            p.registers.vram_addr.fine_y ≤ 0x3FFE := by
          refine pattern_fetch_addr_le _ _ _ hid
            (by have := hWF.2.2.2.2; omega) ?_
          split <;> omega
        obtain ⟨v, hv⟩ := ppu_read_some_of_le p
          ((((if flagContains p.registers.control
            ControlRegister.BACKGROUND_PATTERN_ADDR then 1 else 0) <<< 12 +
              ((p.bg_next_tile_id <<< 4) % 65536)) % 65536 +
            p.registers.vram_addr.fine_y) % 65536) (by omega)
        refine ⟨_, by rw [hv]; rfl, by exact ⟨rfl, rfl, rfl, rfl, rfl, rfl, rfl⟩,
          by exact hid, by rfl, by exact hWF⟩
      · split
        · have hle : ((if flagContains p.registers.control
              ControlRegister.BACKGROUND_PATTERN_ADDR then 1 else 0) <<< 12 +
                ((p.bg_next_tile_id <<< 4) % 65536)) % 65536 +
              (p.registers.vram_addr.fine_y + 8) ≤ 0x3FFE := by
            refine pattern_fetch_addr_le _ _ _ hid
              (by have := hWF.2.2.2.2; omega) ?_
            split <;> omega
          obtain ⟨v, hv⟩ := ppu_read_some_of_le p
            ((((if flagContains p.registers.control
              ControlRegister.BACKGROUND_PATTERN_ADDR then 1 else 0) <<< 12 +
                ((p.bg_next_tile_id <<< 4) % 65536)) % 65536 +
              (p.registers.vram_addr.fine_y + 8)) % 65536) (by omega)
          refine ⟨_, by rw [hv]; rfl, by exact ⟨rfl, rfl, rfl, rfl, rfl, rfl, rfl⟩,
            by exact hid, by rfl, by exact hWF⟩
        · split
          · obtain ⟨hc, hi, hs, hwf⟩ := increment_scroll_x_phase p
            exact ⟨_, rfl, hc, by rw [hi]; exact hid, hs, hwf hWF⟩
          · exact ⟨_, rfl, phaseCore_refl _, hid, rfl, hWF⟩

theorem prefetchTileId_phase (p : PPU)
    (hB : p.BytesOK) :
    ∃ q, p.prefetchTileId = some q ∧ PhaseCore p q ∧
      q.bg_next_tile_id < 256 ∧
      q.sprite_scanline = p.sprite_scanline ∧
      q.registers = p.registers := by
  obtain ⟨h1, h2, h3, _⟩ := hB
  obtain ⟨v, hv⟩ := ppu_read_some_of_le p
    (0x2000 ||| (p.registers.vram_addr.get_bits &&& 0x0FFF)) (tile_fetch_addr_le _)
  unfold PPU.prefetchTileId
  refine ⟨_, by rw [hv]; rfl, by exact ⟨rfl, rfl, rfl, rfl, rfl, rfl, rfl⟩,
    by exact ppu_read_lt _ _ _ h1 h2 h3 hv, by rfl, by rfl⟩

theorem oam_iter_zero : Oam.oam_iter (fun _ => 0) = List.replicate 64 zeroOam := by
  decide

theorem foldl_replicate_congr {α : Type} (P : α → Prop) (f g : α → Oam → α)
    (h : ∀ acc, P acc → f acc zeroOam = g acc zeroOam)
    (hP : ∀ acc, P acc → P (g acc zeroOam)) :
    ∀ (n : Nat) (acc : α), P acc →
      List.foldl f acc (List.replicate n zeroOam) =
        List.foldl g acc (List.replicate n zeroOam) := by
  intro n
  induction n with
  | zero => intro acc _; rfl
  | succ n ih =>
    intro acc hacc
    rw [List.replicate_succ, List.foldl_cons, List.foldl_cons, h acc hacc,
      ih _ (hP acc hacc)]

set_option maxHeartbeats 1000000 in
theorem spriteEval_phase (p : PPU) (hoam : p.oam_data = fun _ => 0)
    (hctl : p.registers.control = 0) :
    PhaseCore p p.spriteEval ∧
    p.spriteEval.bg_next_tile_id = p.bg_next_tile_id ∧
    p.spriteEval.registers.vram_addr = p.registers.vram_addr ∧
    p.spriteEval.sprite_scanline =
      (if 0 ≤ p.scanline ∧ p.scanline < 8 then List.replicate 8 zeroOam else []) := by
  unfold PPU.spriteEval
  dsimp only
  refine ⟨⟨rfl, rfl, rfl, rfl, rfl, rfl, rfl⟩, rfl, rfl, ?_⟩
  rw [hoam, oam_iter_zero, hctl]
  have hzy : ((zeroOam.tile_y : Nat) : Int) = 0 := by decide
  have h8 : ((controlSpriteSize 0 : Nat) : Int) = 8 := by decide
  by_cases hc : 0 ≤ p.scanline ∧ p.scanline < 8
  · rw [if_pos hc]
    have hcond : 0 ≤ p.scanline - ((zeroOam.tile_y : Nat) : Int) ∧
        p.scanline - ((zeroOam.tile_y : Nat) : Int) < ((controlSpriteSize 0 : Nat) : Int) := by
      rw [hzy, h8]
      constructor <;> omega
    rw [foldl_replicate_congr (fun acc => acc.2 = 0) _
      (fun acc _ => if acc.1.length < 8 then (acc.1 ++ [zeroOam], acc.2) else acc)
      ?hfg ?hP 64 ([], 0) rfl]
    case hfg =>
      intro acc hacc
      show (if 9 ≤ acc.2 then acc else _) = _
      rw [if_neg (by omega), if_pos hcond]
    case hP =>
      intro acc hacc
      show Prod.snd (if acc.1.length < 8 then (acc.1 ++ [zeroOam], acc.2) else acc) = 0
      split <;> simpa using hacc
    decide
  · rw [if_neg hc]
    have hnc : ¬ (0 ≤ p.scanline - ((zeroOam.tile_y : Nat) : Int) ∧
        p.scanline - ((zeroOam.tile_y : Nat) : Int) <
          ((controlSpriteSize 0 : Nat) : Int)) := by
      rw [hzy, h8]
      omega
    rw [foldl_replicate_congr (fun _ => True) _ (fun acc _ => acc)
      ?hfg2 (fun _ _ => trivial) 64 ([], 0) trivial]
    case hfg2 =>
      intro acc _
      show (if 9 ≤ acc.2 then acc else _) = _
      rw [if_neg hnc]
      split <;> rfl
    decide

theorem i16AsU16Cast_small (s : Int) (h0 : 0 ≤ s) (h7 : s ≤ 7) :
    i16AsU16Cast s = s.toNat := by
  unfold i16AsU16Cast
  show (s % 65536).toNat = s.toNat
  omega

theorem spriteFetchAddrLo_zero (p : PPU) (hctl : p.registers.control = 0)
    (hs0 : 0 ≤ p.scanline) (hs7 : p.scanline ≤ 7) :
    p.spriteFetchAddrLo zeroOam = p.scanline.toNat := by
  unfold PPU.spriteFetchAddrLo
  rw [hctl]
  have h1 : flagContains 0 ControlRegister.SPRITE_SIZE = false := by decide
  have h2 : zeroOam.flip_vertical = false := by decide
  rw [h1, h2]
  simp only [Bool.false_eq_true, not_false_eq_true, if_true, reduceIte]
  have h3 : controlSpritePatternTableAddress 0 = 0 := by decide
  have h4 : (zeroOam.tile_index <<< 4) % 65536 = 0 := by decide
  have h5 : zeroOam.tile_y % 65536 = 0 := by decide
  rw [h3, h4, h5, i16AsU16Cast_small p.scanline hs0 hs7]
  unfold u16WrapSub
  have h6 : p.scanline.toNat ≤ 7 := by omega
  rw [Nat.zero_or, Nat.zero_or]
  omega

theorem spriteFetchWalk_cons (p : PPU) (oam : Oam) (rest : List Oam)
    (idx : Nat) (lo hi : Nat → Nat) :
    PPU.spriteFetchWalk p (oam :: rest) idx lo hi =
      (p.ppu_read (p.spriteFetchAddrLo oam)).bind (fun bl =>
        (p.ppu_read ((p.spriteFetchAddrLo oam + 8) % 65536)).bind (fun bh =>
          PPU.spriteFetchWalk p rest (idx + 1)
            (fun i => if i = idx then (if oam.flip_horizontal then flipbyte bl else bl) else lo i)
            (fun i => if i = idx then (if oam.flip_horizontal then flipbyte bh else bh) else hi i))) :=
  rfl

theorem spriteFetchWalk_some (p : PPU) (hctl : p.registers.control = 0)
    (hs0 : 0 ≤ p.scanline) (hs7 : p.scanline ≤ 7) :
    ∀ (l : List Oam), (∀ o ∈ l, o = zeroOam) →
      ∀ (idx : Nat) (lo hi : Nat → Nat),
        ∃ st, PPU.spriteFetchWalk p l idx lo hi = some st := by
  intro l
  induction l with
  | nil => intro _ idx lo hi; exact ⟨_, rfl⟩
  | cons o rest ih =>
    intro hz idx lo hi
    have ho : o = zeroOam := hz o (by simp)
    subst ho
    have haddr : p.spriteFetchAddrLo zeroOam = p.scanline.toNat :=
      spriteFetchAddrLo_zero p hctl hs0 hs7
    have hsc : p.scanline.toNat ≤ 7 := by omega
    obtain ⟨v1, hv1⟩ := ppu_read_some_of_le p (p.spriteFetchAddrLo zeroOam)
      (by omega)
    obtain ⟨v2, hv2⟩ := ppu_read_some_of_le p ((p.spriteFetchAddrLo zeroOam + 8) % 65536)
      (by omega)
    obtain ⟨st, hst⟩ := ih (fun o ho => hz o (by simp [ho])) (idx + 1)
      (fun i => if i = idx then (if zeroOam.flip_horizontal then flipbyte v1 else v1) else lo i)
      (fun i => if i = idx then (if zeroOam.flip_horizontal then flipbyte v2 else v2) else hi i)
    refine ⟨st, ?_⟩
    rw [spriteFetchWalk_cons, hv1]
    dsimp only [Option.some_bind]
    rw [hv2]
    dsimp only [Option.some_bind]
    exact hst

theorem spriteFetch_phase (p : PPU) (hctl : p.registers.control = 0)
    (hz : ∀ o ∈ p.sprite_scanline, o = zeroOam)
    (hrange : p.sprite_scanline = [] ∨ (0 ≤ p.scanline ∧ p.scanline ≤ 7)) :
    ∃ q, p.spriteFetch = some q ∧ PhaseCore p q ∧
      q.bg_next_tile_id = p.bg_next_tile_id ∧
      q.sprite_scanline = p.sprite_scanline ∧
      q.registers = p.registers := by
  rcases hrange with hempty | ⟨hs0, hs7⟩
  · refine ⟨_, ?_, by exact ⟨rfl, rfl, rfl, rfl, rfl, rfl, rfl⟩, by rfl, by rfl, by rfl⟩
    unfold PPU.spriteFetch
    nth_rewrite 1 [hempty]
    rfl
  · obtain ⟨st, hst⟩ := spriteFetchWalk_some p hctl hs0 hs7 p.sprite_scanline hz 0
      p.sprite_shifter_pattern_lo p.sprite_shifter_pattern_hi
    refine ⟨{ p with sprite_shifter_pattern_lo := st.1, sprite_shifter_pattern_hi := st.2 },
      ?_, by exact ⟨rfl, rfl, rfl, rfl, rfl, rfl, rfl⟩, by rfl, by rfl, by rfl⟩
    unfold PPU.spriteFetch
    rw [hst]
    rfl

theorem bit_pair_le_three (a b : Nat) (ha : a ≤ 1) (hb : b ≤ 1) :
    (a <<< 1) ||| b ≤ 3 := by
  have h1 : a <<< 1 < 2 ^ 2 := by
    rw [Nat.shiftLeft_eq]
    omega
  have h2 : b < 2 ^ 2 := by omega
  have := Nat.or_lt_two_pow h1 h2
  omega

theorem backgroundPixel_bound (p : PPU) : (p.backgroundPixel).1 ≤ 3 := by
  unfold PPU.backgroundPixel
  split
  · exact bit_pair_le_three _ _ (by split <;> decide) (by split <;> decide)
  · decide

theorem fgScan_bound (shLo shHi : Nat → Nat) :
    ∀ (l : List Oam) (idx : Nat) (acc : Nat × Nat × Bool), acc.1 ≤ 3 →
      (PPU.fgScan shLo shHi l idx acc).1 ≤ 3 := by
  intro l
  induction l with
  | nil => intro idx acc h; exact h
  | cons oam rest ih =>
    intro idx acc h
    have h128 : (0x80 : Nat) >>> 7 = 1 := by decide
    have hlo : shLo idx &&& (0x80 >>> 7) ≤ 1 := by
      rw [h128]
      exact Nat.and_le_right
    have hhi : shHi idx &&& (0x80 >>> 7) ≤ 1 := by
      rw [h128]
      exact Nat.and_le_right
    unfold PPU.fgScan
    split
    · dsimp only
      split
      · exact bit_pair_le_three _ _ hhi hlo
      · exact ih _ _ (bit_pair_le_three _ _ hhi hlo)
    · exact ih _ _ h

theorem foregroundPixel_bound (p : PPU) : (p.foregroundPixel).1 ≤ 3 := by
  unfold PPU.foregroundPixel
  split
  · exact fgScan_bound _ _ _ _ _ (by decide)
  · decide

theorem get_color_some (p : PPU) (px : Nat × Nat) (h : px.1 ≤ 3) :
    ∃ rgb, p.get_color_from_palette_ram px.1 px.2 = some rgb := by
  have hsl : px.2 <<< 2 = px.2 * 4 := by
    rw [Nat.shiftLeft_eq]
  have heq : px.2 * 4 % 256 = px.2 % 64 * 4 := by
    have := Nat.mul_mod_mul_right 4 px.2 64
    simpa using this
  have haddr : (0x3F00 + (px.2 <<< 2) % 256 + px.1) % 65536 ≤ 0x3FFF := by
    rw [hsl, heq]
    omega
  obtain ⟨v, hv⟩ := ppu_read_some_of_le p _ haddr
  exact ⟨_, by unfold PPU.get_color_from_palette_ram; rw [hv]; rfl⟩

theorem set_pixel_phase (p : PPU) (x y : Nat) (rgb : Nat × Nat × Nat) :
    PhaseCore p (p.set_pixel x y rgb) ∧
    (p.set_pixel x y rgb).registers = p.registers ∧
    (p.set_pixel x y rgb).sprite_scanline = p.sprite_scanline ∧
    (p.set_pixel x y rgb).bg_next_tile_id = p.bg_next_tile_id := by
  unfold PPU.set_pixel
  split
  · exact ⟨phaseCore_refl p, rfl, rfl, rfl⟩
  · split
    · exact ⟨phaseCore_refl p, rfl, rfl, rfl⟩
    · exact ⟨⟨rfl, rfl, rfl, rfl, rfl, rfl, rfl⟩, rfl, rfl, rfl⟩

theorem px_select_bound (b : Nat × Nat) (f : Nat × Nat × Bool)
    (hb : b.1 ≤ 3) (hf : f.1 ≤ 3) :
    (if b.1 = 0 ∧ f.1 = 0 then ((0x00 : Nat), (0x00 : Nat))
     else if b.1 = 0 ∧ 0 < f.1 then (f.1, f.2.1)
     else if 0 < b.1 ∧ f.1 = 0 then (b.1, b.2)
     else if f.2.2 then (f.1, f.2.1)
     else (b.1, b.2)).1 ≤ 3 := by
  repeat' split
  all_goals first | exact hf | exact hb | decide

theorem pixelDot_eq (p : PPU) :
    p.pixelDot =
      (p.get_color_from_palette_ram
        (if (p.backgroundPixel).1 = 0 ∧ (p.foregroundPixel).1 = 0 then
           ((0x00 : Nat), (0x00 : Nat))
         else if (p.backgroundPixel).1 = 0 ∧ 0 < (p.foregroundPixel).1 then
           ((p.foregroundPixel).1, (p.foregroundPixel).2.1)
         else if 0 < (p.backgroundPixel).1 ∧ (p.foregroundPixel).1 = 0 then
           ((p.backgroundPixel).1, (p.backgroundPixel).2)
         else if (p.foregroundPixel).2.2 then
           ((p.foregroundPixel).1, (p.foregroundPixel).2.1)
         else ((p.backgroundPixel).1, (p.backgroundPixel).2)).1
        (if (p.backgroundPixel).1 = 0 ∧ (p.foregroundPixel).1 = 0 then
           ((0x00 : Nat), (0x00 : Nat))
         else if (p.backgroundPixel).1 = 0 ∧ 0 < (p.foregroundPixel).1 then
           ((p.foregroundPixel).1, (p.foregroundPixel).2.1)
         else if 0 < (p.backgroundPixel).1 ∧ (p.foregroundPixel).1 = 0 then
           ((p.backgroundPixel).1, (p.backgroundPixel).2)
         else if (p.foregroundPixel).2.2 then
           ((p.foregroundPixel).1, (p.foregroundPixel).2.1)
         else ((p.backgroundPixel).1, (p.backgroundPixel).2)).2).bind
      (fun rgb =>
        some (p.set_pixel (usizeWrapSub p.cycles 1) (i16AsUsize p.scanline) rgb)) :=
  rfl

theorem pixelDot_phase (p : PPU) :
    ∃ q, p.pixelDot = some q ∧ PhaseCore p q ∧ q.registers = p.registers ∧
      q.sprite_scanline = p.sprite_scanline ∧
      q.bg_next_tile_id = p.bg_next_tile_id := by
  have hpx := px_select_bound p.backgroundPixel p.foregroundPixel
    (backgroundPixel_bound p) (foregroundPixel_bound p)
  obtain ⟨rgb, hrgb⟩ := get_color_some p _ hpx
  obtain ⟨hc, hr, hs, hi⟩ :=
    set_pixel_phase p (usizeWrapSub p.cycles 1) (i16AsUsize p.scanline) rgb
  exact ⟨_, by rw [pixelDot_eq, hrgb]; rfl, hc, hr, hs, hi⟩

theorem bytesOK_transfer (x y : PPU) (h : PhaseCore x y) (hx : x.BytesOK)
    (hid : y.bg_next_tile_id < 256) : y.BytesOK := by
  obtain ⟨_, _, _, _, hch, hvr, hpt⟩ := h
  obtain ⟨h1, h2, h3, _⟩ := hx
  exact ⟨fun a => by rw [hch]; exact h1 a, fun a => by rw [hvr]; exact h2 a,
    fun a => by rw [hpt]; exact h3 a, hid⟩

theorem vblankDot_phase (p : PPU) (hctl : p.registers.control = 0) :
    (p.vblankDot).2 = false ∧ PhaseCore p (p.vblankDot).1 ∧
    (p.vblankDot).1.registers.vram_addr = p.registers.vram_addr ∧
    (p.vblankDot).1.sprite_scanline = p.sprite_scanline ∧
    (p.vblankDot).1.bg_next_tile_id = p.bg_next_tile_id := by
  unfold PPU.vblankDot
  split
  · split
    · dsimp only
      split
      · next h =>
          rw [hctl] at h
          exact absurd h (by decide)
      · exact ⟨rfl, ⟨rfl, rfl, rfl, rfl, rfl, rfl, rfl⟩, rfl, rfl, rfl⟩
    · exact ⟨rfl, phaseCore_refl p, rfl, rfl, rfl⟩
  · exact ⟨rfl, phaseCore_refl p, rfl, rfl, rfl⟩

theorem advanceDot_phase (p : PPU) :
    (p.advanceDot).1.registers = p.registers ∧
    (p.advanceDot).1.oam_data = p.oam_data ∧
    (p.advanceDot).1.chr_rom = p.chr_rom ∧
    (p.advanceDot).1.vram = p.vram ∧
    (p.advanceDot).1.palette_table = p.palette_table ∧
    (p.advanceDot).1.sprite_scanline = p.sprite_scanline ∧
    (p.advanceDot).1.bg_next_tile_id = p.bg_next_tile_id ∧
    (if 341 ≤ p.cycles + 1 then
       if 261 ≤ p.scanline + 1 then
         (p.advanceDot).1.scanline = -1 ∧ (p.advanceDot).1.cycles = 0 ∧
           (p.advanceDot).2 = true
       else
         (p.advanceDot).1.scanline = p.scanline + 1 ∧
           (p.advanceDot).1.cycles = 0 ∧ (p.advanceDot).2 = false
     else
       (p.advanceDot).1.scanline = p.scanline ∧
         (p.advanceDot).1.cycles = p.cycles + 1 ∧ (p.advanceDot).2 = false) := by
  unfold PPU.advanceDot
  dsimp only
  split
  · split
    · exact ⟨rfl, rfl, rfl, rfl, rfl, rfl, rfl, rfl, rfl, rfl⟩
    · exact ⟨rfl, rfl, rfl, rfl, rfl, rfl, rfl, rfl, rfl, rfl⟩
  · exact ⟨rfl, rfl, rfl, rfl, rfl, rfl, rfl, rfl, rfl, rfl⟩

theorem fetchWindow_step (x : PPU) (hz : ∀ o ∈ x.sprite_scanline, o = zeroOam)
    (hB : x.BytesOK) (hWF : LoopyWF x.registers.vram_addr) :
    ∃ y, (if (2 ≤ x.cycles ∧ x.cycles < 258) ∨ (321 ≤ x.cycles ∧ x.cycles < 338) then
        (x.update_shifters).fetchGroup else some x) = some y ∧
      PhaseCore x y ∧ y.bg_next_tile_id < 256 ∧
      y.sprite_scanline = x.sprite_scanline ∧ LoopyWF y.registers.vram_addr := by
  split
  · obtain ⟨hcU, hiU, hsU, hrU⟩ := update_shifters_phase x hz
    obtain ⟨q, hq, hc, hi, hs, hwf⟩ := fetchGroup_phase x.update_shifters
      (bytesOK_transfer x x.update_shifters hcU hB (by rw [hiU]; exact hB.2.2.2))
      (by rw [hrU]; exact hWF)
    exact ⟨q, hq, phaseCore_trans hcU hc, hi, hs.trans hsU, hwf⟩
  · exact ⟨x, rfl, phaseCore_refl x, hB.2.2.2, rfl, hWF⟩

theorem scrollY_step (x : PPU) :
    PhaseCore x (if x.cycles = 256 then x.increment_scroll_y else x) ∧
    (if x.cycles = 256 then x.increment_scroll_y else x).bg_next_tile_id =
      x.bg_next_tile_id ∧
    (if x.cycles = 256 then x.increment_scroll_y else x).sprite_scanline =
      x.sprite_scanline ∧
    (LoopyWF x.registers.vram_addr →
      LoopyWF (if x.cycles = 256 then x.increment_scroll_y else x).registers.vram_addr) := by
  split
  · exact increment_scroll_y_phase x
  · exact ⟨phaseCore_refl x, rfl, rfl, fun h => h⟩

theorem transferX_step (x : PPU) :
    PhaseCore x
      (if x.cycles = 257 then (x.load_background_shifters).transfer_address_x else x) ∧
    (if x.cycles = 257 then (x.load_background_shifters).transfer_address_x
      else x).bg_next_tile_id = x.bg_next_tile_id ∧
    (if x.cycles = 257 then (x.load_background_shifters).transfer_address_x
      else x).sprite_scanline = x.sprite_scanline ∧
    (LoopyWF x.registers.vram_addr →
      LoopyWF (if x.cycles = 257 then (x.load_background_shifters).transfer_address_x
        else x).registers.vram_addr) := by
  split
  · obtain ⟨lc, li, ls, lr⟩ := load_background_shifters_phase x
    obtain ⟨tc, ti, ts, tw⟩ := transfer_address_x_phase x.load_background_shifters
    exact ⟨phaseCore_trans lc tc, ti.trans li, ts.trans ls,
      fun h => tw (by rw [lr]; exact h)⟩
  · exact ⟨phaseCore_refl x, rfl, rfl, fun h => h⟩

theorem prefetchWindow_step (x : PPU) (hB : x.BytesOK) :
    ∃ y, (if x.cycles = 338 ∨ x.cycles = 340 then x.prefetchTileId else some x) =
        some y ∧
      PhaseCore x y ∧ y.bg_next_tile_id < 256 ∧
      y.sprite_scanline = x.sprite_scanline ∧ y.registers = x.registers := by
  split
  · exact prefetchTileId_phase x hB
  · exact ⟨x, rfl, phaseCore_refl x, hB.2.2.2, rfl, rfl⟩

theorem transferY_step (x : PPU) :
    PhaseCore x
      (if x.scanline = -1 ∧ 280 ≤ x.cycles ∧ x.cycles < 305 then
        x.transfer_address_y else x) ∧
    (if x.scanline = -1 ∧ 280 ≤ x.cycles ∧ x.cycles < 305 then
      x.transfer_address_y else x).bg_next_tile_id = x.bg_next_tile_id ∧
    (if x.scanline = -1 ∧ 280 ≤ x.cycles ∧ x.cycles < 305 then
      x.transfer_address_y else x).sprite_scanline = x.sprite_scanline ∧
    (LoopyWF x.registers.vram_addr →
      LoopyWF (if x.scanline = -1 ∧ 280 ≤ x.cycles ∧ x.cycles < 305 then
        x.transfer_address_y else x).registers.vram_addr) := by
  split
  · exact transfer_address_y_phase x
  · exact ⟨phaseCore_refl x, rfl, rfl, fun h => h⟩

theorem preRender_step (x : PPU) :
    PhaseCore x (if x.scanline = -1 ∧ x.cycles = 1 then x.clearForPreRender else x) ∧
    (if x.scanline = -1 ∧ x.cycles = 1 then x.clearForPreRender
      else x).bg_next_tile_id = x.bg_next_tile_id ∧
    (if x.scanline = -1 ∧ x.cycles = 1 then x.clearForPreRender
      else x).sprite_scanline = x.sprite_scanline ∧
    (if x.scanline = -1 ∧ x.cycles = 1 then x.clearForPreRender
      else x).registers.vram_addr = x.registers.vram_addr := by
  split
  · exact clearForPreRender_phase x
  · exact ⟨phaseCore_refl x, rfl, rfl, rfl⟩

theorem spriteEval_step (x : PPU) (hoam : x.oam_data = fun _ => 0)
    (hctl : x.registers.control = 0) :
    PhaseCore x (if x.cycles = 257 ∧ 0 ≤ x.scanline then x.spriteEval else x) ∧
    (if x.cycles = 257 ∧ 0 ≤ x.scanline then x.spriteEval
      else x).bg_next_tile_id = x.bg_next_tile_id ∧
    (if x.cycles = 257 ∧ 0 ≤ x.scanline then x.spriteEval
      else x).registers.vram_addr = x.registers.vram_addr ∧
    (if x.cycles = 257 ∧ 0 ≤ x.scanline then x.spriteEval
      else x).sprite_scanline =
      (if x.cycles = 257 ∧ 0 ≤ x.scanline then
        (if 0 ≤ x.scanline ∧ x.scanline < 8 then List.replicate 8 zeroOam else [])
      else x.sprite_scanline) := by
  split
  · obtain ⟨ec, ei, ev, es⟩ := spriteEval_phase x hoam hctl
    exact ⟨ec, ei, ev, es⟩
  · exact ⟨phaseCore_refl x, rfl, rfl, rfl⟩

theorem spriteFetchWindow_step (x : PPU) (hctl : x.registers.control = 0)
    (hz : ∀ o ∈ x.sprite_scanline, o = zeroOam)
    (hrange : x.cycles = 340 →
      (x.sprite_scanline = [] ∨ (0 ≤ x.scanline ∧ x.scanline ≤ 7))) :
    ∃ y, (if x.cycles = 340 then x.spriteFetch else some x) = some y ∧
      PhaseCore x y ∧ y.bg_next_tile_id = x.bg_next_tile_id ∧
      y.sprite_scanline = x.sprite_scanline ∧ y.registers = x.registers := by
  split
  · next h => exact spriteFetch_phase x hctl hz (hrange h)
  · exact ⟨x, rfl, phaseCore_refl x, rfl, rfl, rfl⟩

theorem bind_ite {m : Type → Type} [Monad m] {α β : Type} (c : Prop)
    [Decidable c] (a b : m α) (f : α → m β) :
    (if c then (a >>= f) else (b >>= f)) = (if c then a else b) >>= f := by
  split <;> rfl

theorem visibleDot_stages (p : PPU) :
    p.visibleDot =
      (stageB (stageA p)).bind (fun x =>
        (stageD (stageC x)).bind (fun y => stageF (stageE y))) := by
  unfold PPU.visibleDot stageA stageB stageC stageD stageE stageF
  dsimp only
  simp only [bind_ite]
  rfl

theorem stageA_phase (x : PPU) :
    (stageA x).scanline = x.scanline ∧
    (stageA x).cycles = (if x.scanline = 0 ∧ x.cycles = 0 then 1 else x.cycles) ∧
    (stageA x).registers.control = x.registers.control ∧
    (stageA x).registers.vram_addr = x.registers.vram_addr ∧
    (stageA x).oam_data = x.oam_data ∧
    (stageA x).chr_rom = x.chr_rom ∧
    (stageA x).vram = x.vram ∧
    (stageA x).palette_table = x.palette_table ∧
    (stageA x).sprite_scanline = x.sprite_scanline ∧
    (stageA x).bg_next_tile_id = x.bg_next_tile_id := by
  unfold stageA
  dsimp only
  split
  · split
    · exact ⟨rfl, rfl, rfl, rfl, rfl, rfl, rfl, rfl, rfl, rfl⟩
    · exact ⟨rfl, rfl, rfl, rfl, rfl, rfl, rfl, rfl, rfl, rfl⟩
  · split
    · exact ⟨rfl, rfl, rfl, rfl, rfl, rfl, rfl, rfl, rfl, rfl⟩
    · exact ⟨rfl, rfl, rfl, rfl, rfl, rfl, rfl, rfl, rfl, rfl⟩

theorem stageB_phase (x : PPU) (hz : ∀ o ∈ x.sprite_scanline, o = zeroOam)
    (hB : x.BytesOK) (hWF : LoopyWF x.registers.vram_addr) :
    ∃ y, stageB x = some y ∧
      PhaseCore x y ∧ y.bg_next_tile_id < 256 ∧
      y.sprite_scanline = x.sprite_scanline ∧ LoopyWF y.registers.vram_addr :=
  fetchWindow_step x hz hB hWF

theorem stageC_phase (x : PPU) :
    PhaseCore x (stageC x) ∧
    (stageC x).bg_next_tile_id = x.bg_next_tile_id ∧
    (stageC x).sprite_scanline = x.sprite_scanline ∧
    (LoopyWF x.registers.vram_addr → LoopyWF (stageC x).registers.vram_addr) := by
  obtain ⟨c4, i4, s4, w4⟩ := scrollY_step x
  obtain ⟨c5, i5, s5, w5⟩ :=
    transferX_step (if x.cycles = 256 then x.increment_scroll_y else x)
  exact ⟨phaseCore_trans c4 c5, i5.trans i4, s5.trans s4, fun h => w5 (w4 h)⟩

theorem stageD_phase (x : PPU) (hB : x.BytesOK) :
    ∃ y, stageD x = some y ∧
      PhaseCore x y ∧ y.bg_next_tile_id < 256 ∧
      y.sprite_scanline = x.sprite_scanline ∧ y.registers = x.registers :=
  prefetchWindow_step x hB

theorem stageE_phase (x : PPU) (hoam : x.oam_data = fun _ => 0)
    (hctl : x.registers.control = 0) :
    PhaseCore x (stageE x) ∧
    (stageE x).bg_next_tile_id = x.bg_next_tile_id ∧
    (LoopyWF x.registers.vram_addr → LoopyWF (stageE x).registers.vram_addr) ∧
    (stageE x).sprite_scanline =
      (if x.cycles = 257 ∧ 0 ≤ x.scanline then
        (if 0 ≤ x.scanline ∧ x.scanline < 8 then List.replicate 8 zeroOam else [])
      else x.sprite_scanline) := by
  obtain ⟨c7, i7, s7, w7⟩ := transferY_step x
  obtain ⟨c8, i8, v8, s8⟩ := spriteEval_step
    (if x.scanline = -1 ∧ 280 ≤ x.cycles ∧ x.cycles < 305 then x.transfer_address_y
     else x)
    (by rw [c7.2.2.2.1]; exact hoam) (by rw [c7.2.2.1]; exact hctl)
  unfold stageE
  dsimp only
  refine ⟨phaseCore_trans c7 c8, i8.trans i7, fun h => ?_, ?_⟩
  · rw [v8]
    exact w7 h
  · rw [s8, c7.2.1, c7.1, s7]

theorem stageF_phase (x : PPU) (hctl : x.registers.control = 0)
    (hz : ∀ o ∈ x.sprite_scanline, o = zeroOam)
    (hrange : x.cycles = 340 →
      (x.sprite_scanline = [] ∨ (0 ≤ x.scanline ∧ x.scanline ≤ 7))) :
    ∃ y, stageF x = some y ∧
      PhaseCore x y ∧ y.bg_next_tile_id = x.bg_next_tile_id ∧
      y.sprite_scanline = x.sprite_scanline ∧ y.registers = x.registers :=
  spriteFetchWindow_step x hctl hz hrange

set_option maxHeartbeats 1000000 in
theorem visibleDot_phase (p : PPU) (hInv : p.Inv) :
    ∃ q, p.visibleDot = some q ∧
      q.scanline = p.scanline ∧
      q.cycles = (if p.scanline = 0 ∧ p.cycles = 0 then 1 else p.cycles) ∧
      q.registers.control = 0 ∧
      q.oam_data = (fun _ => 0) ∧
      q.BytesOK ∧
      LoopyWF q.registers.vram_addr ∧
      q.sprite_scanline =
        (if (if p.scanline = 0 ∧ p.cycles = 0 then 1 else p.cycles) = 257 ∧
            0 ≤ p.scanline then
          (if 0 ≤ p.scanline ∧ p.scanline < 8 then List.replicate 8 zeroOam else [])
        else p.sprite_scanline) := by
  obtain ⟨hB, hWF, hctl, hoam, hSp⟩ := hInv
  have hzp : ∀ o ∈ p.sprite_scanline, o = zeroOam := by
    rcases hSp with h | ⟨hall, _⟩
    · rw [h]
      intro o ho
      cases ho
    · intro o ho
      have := List.all_eq_true.mp hall o ho
      simpa using this
  obtain ⟨ha_s, ha_c, ha_ct, ha_va, ha_o, ha_ch, ha_v, ha_p, ha_sp, ha_i⟩ :=
    stageA_phase p
  have hB1 : (stageA p).BytesOK :=
    ⟨fun a => by rw [ha_ch]; exact hB.1 a, fun a => by rw [ha_v]; exact hB.2.1 a,
     fun a => by rw [ha_p]; exact hB.2.2.1 a, by rw [ha_i]; exact hB.2.2.2⟩
  have hWF1 : LoopyWF (stageA p).registers.vram_addr := by
    rw [ha_va]
    exact hWF
  have hz1 : ∀ o ∈ (stageA p).sprite_scanline, o = zeroOam := by
    rw [ha_sp]
    exact hzp
  obtain ⟨q3, hq3, bc, bi, bs, bwf⟩ := stageB_phase (stageA p) hz1 hB1 hWF1
  have hsc3 : q3.scanline = p.scanline := bc.1.trans ha_s
  have hcy3 : q3.cycles = (if p.scanline = 0 ∧ p.cycles = 0 then 1 else p.cycles) :=
    bc.2.1.trans ha_c
  have hct3 : q3.registers.control = 0 := (bc.2.2.1.trans ha_ct).trans hctl
  have hoa3 : q3.oam_data = (fun _ => 0) := (bc.2.2.2.1.trans ha_o).trans hoam
  have hB3 : q3.BytesOK := bytesOK_transfer (stageA p) q3 bc hB1 bi
  have hsp3 : q3.sprite_scanline = p.sprite_scanline := bs.trans ha_sp
  obtain ⟨cc, ci, cs, cw⟩ := stageC_phase q3
  have hB4 : (stageC q3).BytesOK :=
    bytesOK_transfer q3 (stageC q3) cc hB3 (by rw [ci]; exact hB3.2.2.2)
  obtain ⟨q6, hq6, dc, di, ds, dr⟩ := stageD_phase (stageC q3) hB4
  have hsc6 : q6.scanline = p.scanline := (dc.1.trans cc.1).trans hsc3
  have hcy6 : q6.cycles = (if p.scanline = 0 ∧ p.cycles = 0 then 1 else p.cycles) :=
    (dc.2.1.trans cc.2.1).trans hcy3
  have hct6 : q6.registers.control = 0 := (dc.2.2.1.trans cc.2.2.1).trans hct3
  have hoa6 : q6.oam_data = (fun _ => 0) := (dc.2.2.2.1.trans cc.2.2.2.1).trans hoa3
  have hB6 : q6.BytesOK := bytesOK_transfer (stageC q3) q6 dc hB4 di
  have hsp6 : q6.sprite_scanline = p.sprite_scanline := (ds.trans cs).trans hsp3
  have hWF6 : LoopyWF q6.registers.vram_addr := by
    rw [dr]
    exact cw bwf
  obtain ⟨ec, ei, ew, es⟩ := stageE_phase q6 hoa6 hct6
  rw [hcy6, hsc6, hsp6] at es
  have hB8 : (stageE q6).BytesOK :=
    bytesOK_transfer q6 (stageE q6) ec hB6 (by rw [ei]; exact hB6.2.2.2)
  have hct8 : (stageE q6).registers.control = 0 := ec.2.2.1.trans hct6
  have hz8 : ∀ o ∈ (stageE q6).sprite_scanline, o = zeroOam := by
    rw [es]
    intro o ho
    by_cases h1 : (if p.scanline = 0 ∧ p.cycles = 0 then 1 else p.cycles) = 257 ∧
        0 ≤ p.scanline
    · rw [if_pos h1] at ho
      by_cases h2 : 0 ≤ p.scanline ∧ p.scanline < 8
      · rw [if_pos h2] at ho
        exact List.eq_of_mem_replicate ho
      · rw [if_neg h2] at ho
        cases ho
    · rw [if_neg h1] at ho
      exact hzp o ho
  have hcy8 : (stageE q6).cycles =
      (if p.scanline = 0 ∧ p.cycles = 0 then 1 else p.cycles) := ec.2.1.trans hcy6
  have hsc8 : (stageE q6).scanline = p.scanline := ec.1.trans hsc6
  have hrange8 : (stageE q6).cycles = 340 →
      ((stageE q6).sprite_scanline = [] ∨
        (0 ≤ (stageE q6).scanline ∧ (stageE q6).scanline ≤ 7)) := by
    intro h340
    rw [hcy8] at h340
    rw [es, hsc8, if_neg (fun hc => absurd (hc.1.symm.trans h340) (by decide))]
    rcases hSp with h | ⟨_, hr0, hr8, hr257⟩
    · exact Or.inl h
    · right
      refine ⟨hr0, ?_⟩
      by_cases h8 : p.scanline = 8
      · exfalso
        have hcc := hr257 h8
        rw [if_neg (fun hskip => absurd (h8.symm.trans hskip.1) (by decide))] at h340
        omega
      · omega
  obtain ⟨q9, hq9, fc, fi, fs, fr⟩ := stageF_phase (stageE q6) hct8 hz8 hrange8
  refine ⟨q9, ?_, ?_, ?_, ?_, ?_, ?_, ?_, ?_⟩
  · rw [visibleDot_stages, hq3]
    simp only [Option.some_bind]
    rw [hq6]
    simp only [Option.some_bind]
    exact hq9
  · exact fc.1.trans hsc8
  · exact fc.2.1.trans hcy8
  · exact fc.2.2.1.trans hct8
  · exact (fc.2.2.2.1.trans ec.2.2.2.1).trans hoa6
  · exact bytesOK_transfer (stageE q6) q9 fc hB8 (by rw [fi]; exact hB8.2.2.2)
  · rw [fr]
    exact ew hWF6
  · exact fs.trans es

theorem tick_tail_phase (x : PPU) (hctl : x.registers.control = 0) :
    ∃ y, ((x.vblankDot).1).pixelDot = some y ∧ (x.vblankDot).2 = false ∧
      PhaseCore x y ∧ y.registers.vram_addr = x.registers.vram_addr ∧
      y.sprite_scanline = x.sprite_scanline ∧
      y.bg_next_tile_id = x.bg_next_tile_id := by
  obtain ⟨hflag, vc, vva, vsp, vbi⟩ := vblankDot_phase x hctl
  obtain ⟨y, hy, pc, pr, ps, pi⟩ := pixelDot_phase (x.vblankDot).1
  refine ⟨y, hy, hflag, phaseCore_trans vc pc, ?_, ps.trans vsp, pi.trans vbi⟩
  rw [pr]
  exact vva

theorem tickOne_eq (p : PPU) :
    p.tickOne =
      ((if -1 ≤ p.scanline ∧ p.scanline < 240 then p.visibleDot else some p).bind
        (fun x => (((x.vblankDot).1).pixelDot).bind (fun y =>
          some ((y.advanceDot).1, (x.vblankDot).2 || (y.advanceDot).2)))) := by
  unfold PPU.tickOne
  dsimp only
  simp only [bind_ite]
  rfl

theorem advance_counter (y : PPU) (s : Int) (c0 : Nat)
    (hsc : y.scanline = s) (hcy : y.cycles = c0) :
    (((y.advanceDot).1.scanline, (y.advanceDot).1.cycles), (y.advanceDot).2) =
      (if 341 ≤ c0 + 1 then
        (if 261 ≤ s + 1 then (((-1 : Int), 0), true) else ((s + 1, 0), false))
       else ((s, c0 + 1), false)) := by
  obtain ⟨_, _, _, _, _, _, _, aif⟩ := advanceDot_phase y
  rw [hcy, hsc] at aif
  by_cases h341 : 341 ≤ c0 + 1
  · by_cases h261 : 261 ≤ s + 1
    · rw [if_pos h341, if_pos h261] at aif
      rw [if_pos h341, if_pos h261, aif.1, aif.2.1, aif.2.2]
    · rw [if_pos h341, if_neg h261] at aif
      rw [if_pos h341, if_neg h261, aif.1, aif.2.1, aif.2.2]
  · rw [if_neg h341] at aif
    rw [if_neg h341, aif.1, aif.2.1, aif.2.2]

theorem dotCounterStep_eq (s : Int) (c : Nat) :
    dotCounterStep s c =
      (if 341 ≤ (if s = 0 ∧ c = 0 then 1 else c) + 1 then
        (if 261 ≤ s + 1 then (((-1 : Int), 0), true) else ((s + 1, 0), false))
       else ((s, (if s = 0 ∧ c = 0 then 1 else c) + 1), false)) :=
  rfl

set_option maxHeartbeats 1000000 in
theorem tickOne_bridge (p : PPU) (hInv : p.Inv) :
    ∃ q flag, p.tickOne = some (q, flag) ∧ q.Inv ∧
      ((q.scanline, q.cycles), flag) = dotCounterStep p.scanline p.cycles := by
  by_cases hvis : -1 ≤ p.scanline ∧ p.scanline < 240
  · obtain ⟨p1, hvd, h1s, h1c, h1ct, h1oam, h1B, h1WF, h1sp⟩ :=
      visibleDot_phase p hInv
    obtain ⟨y, hy, hflag, tc, tva, tsp, tbi⟩ := tick_tail_phase p1 h1ct
    obtain ⟨ar, ao, ach, av, apa, asp, abi, _⟩ := advanceDot_phase y
    have hysc : y.scanline = p.scanline := tc.1.trans h1s
    have hycy : y.cycles =
        (if p.scanline = 0 ∧ p.cycles = 0 then 1 else p.cycles) := tc.2.1.trans h1c
    have hac := advance_counter y p.scanline
      (if p.scanline = 0 ∧ p.cycles = 0 then 1 else p.cycles) hysc hycy
    have hsprite : (y.advanceDot).1.sprite_scanline =
        (if (if p.scanline = 0 ∧ p.cycles = 0 then 1 else p.cycles) = 257 ∧
            0 ≤ p.scanline then
          (if 0 ≤ p.scanline ∧ p.scanline < 8 then List.replicate 8 zeroOam else [])
        else p.sprite_scanline) := asp.trans (tsp.trans h1sp)
    have heq : p.tickOne = some ((y.advanceDot).1, (y.advanceDot).2) := by
      rw [tickOne_eq, if_pos hvis, hvd]
      simp only [Option.some_bind]
      rw [hy]
      simp only [Option.some_bind]
      rw [hflag]
      simp only [Bool.false_or]
    refine ⟨(y.advanceDot).1, (y.advanceDot).2, heq, ⟨?_, ?_, ?_, ?_, ?_⟩, ?_⟩
    · exact ⟨fun a => by rw [ach, tc.2.2.2.2.1]; exact h1B.1 a,
        fun a => by rw [av, tc.2.2.2.2.2.1]; exact h1B.2.1 a,
        fun a => by rw [apa, tc.2.2.2.2.2.2]; exact h1B.2.2.1 a,
        by rw [abi, tbi]; exact h1B.2.2.2⟩
    · rw [ar, tva]
      exact h1WF
    · rw [ar]
      exact tc.2.2.1.trans h1ct
    · exact (ao.trans tc.2.2.2.1).trans h1oam
    · unfold PPU.SpriteOK
      by_cases hc257 : (if p.scanline = 0 ∧ p.cycles = 0 then 1 else p.cycles) = 257 ∧
          0 ≤ p.scanline
      · by_cases h8 : 0 ≤ p.scanline ∧ p.scanline < 8
        · have h341 : ¬(341 ≤
              (if p.scanline = 0 ∧ p.cycles = 0 then 1 else p.cycles) + 1) := by
            rw [hc257.1]
            omega
          rw [if_neg h341] at hac
          simp only [Prod.mk.injEq] at hac
          right
          refine ⟨?_, ?_, ?_, ?_⟩
          · rw [hsprite, if_pos hc257, if_pos h8]
            decide
          · rw [hac.1.1]
            exact h8.1
          · rw [hac.1.1]
            omega
          · intro hx
            rw [hac.1.1] at hx
            exact absurd hx (by omega)
        · left
          rw [hsprite, if_pos hc257, if_neg h8]
      · rcases hInv.2.2.2.2 with hemp | ⟨hall, hr0, hr8, hr257⟩
        · left
          rw [hsprite, if_neg hc257]
          exact hemp
        · by_cases h341 : 341 ≤
              (if p.scanline = 0 ∧ p.cycles = 0 then 1 else p.cycles) + 1
          · have h261 : ¬(261 ≤ p.scanline + 1) := by omega
            rw [if_pos h341, if_neg h261] at hac
            simp only [Prod.mk.injEq] at hac
            have hs7 : p.scanline ≤ 7 := by
              by_contra hcon
              have h8' : p.scanline = 8 := by omega
              have hcc := hr257 h8'
              rw [if_neg (fun hk => absurd (h8'.symm.trans hk.1) (by decide))] at h341
              omega
            right
            refine ⟨?_, ?_, ?_, ?_⟩
            · rw [hsprite, if_neg hc257]
              exact hall
            · rw [hac.1.1]
              omega
            · rw [hac.1.1]
              omega
            · intro _
              rw [hac.1.2]
              omega
          · rw [if_neg h341] at hac
            simp only [Prod.mk.injEq] at hac
            right
            refine ⟨?_, ?_, ?_, ?_⟩
            · rw [hsprite, if_neg hc257]
              exact hall
            · rw [hac.1.1]
              exact hr0
            · rw [hac.1.1]
              exact hr8
            · intro hx
              rw [hac.1.1] at hx
              have hcc := hr257 hx
              have hnoskip : ¬(p.scanline = 0 ∧ p.cycles = 0) :=
                fun hk => absurd (hx.symm.trans hk.1) (by decide)
              have hC : (if p.scanline = 0 ∧ p.cycles = 0 then 1 else p.cycles) =
                  p.cycles := if_neg hnoskip
              have hne : p.cycles ≠ 257 := fun he => hc257 ⟨hC.trans he, by omega⟩
              rw [hac.1.2, hC]
              omega
    · rw [dotCounterStep_eq]
      exact hac
  · have hctl := hInv.2.2.1
    obtain ⟨y, hy, hflag, tc, tva, tsp, tbi⟩ := tick_tail_phase p hctl
    obtain ⟨ar, ao, ach, av, apa, asp, abi, _⟩ := advanceDot_phase y
    have hnoskip : ¬(p.scanline = 0 ∧ p.cycles = 0) := by
      intro hk
      exact hvis ⟨by omega, by omega⟩
    have hC : (if p.scanline = 0 ∧ p.cycles = 0 then 1 else p.cycles) = p.cycles :=
      if_neg hnoskip
    have hac := advance_counter y p.scanline p.cycles tc.1 tc.2.1
    have hsprite : (y.advanceDot).1.sprite_scanline = p.sprite_scanline :=
      asp.trans tsp
    have heq : p.tickOne = some ((y.advanceDot).1, (y.advanceDot).2) := by
      rw [tickOne_eq, if_neg hvis]
      simp only [Option.some_bind]
      rw [hy]
      simp only [Option.some_bind]
      rw [hflag]
      simp only [Bool.false_or]
    refine ⟨(y.advanceDot).1, (y.advanceDot).2, heq, ⟨?_, ?_, ?_, ?_, ?_⟩, ?_⟩
    · exact ⟨fun a => by rw [ach, tc.2.2.2.2.1]; exact hInv.1.1 a,
        fun a => by rw [av, tc.2.2.2.2.2.1]; exact hInv.1.2.1 a,
        fun a => by rw [apa, tc.2.2.2.2.2.2]; exact hInv.1.2.2.1 a,
        by rw [abi, tbi]; exact hInv.1.2.2.2⟩
    · rw [ar, tva]
      exact hInv.2.1
    · rw [ar]
      exact tc.2.2.1.trans hctl
    · exact (ao.trans tc.2.2.2.1).trans hInv.2.2.2.1
    · unfold PPU.SpriteOK
      rcases hInv.2.2.2.2 with hemp | ⟨hall, hr0, hr8, hr257⟩
      · left
        rw [hsprite]
        exact hemp
      · exfalso
        rcases not_and_or.mp hvis with h | h
        · omega
        · omega
    · rw [dotCounterStep_eq, hC]
      exact hac

theorem run_succ (p : PPU) (n : Nat) :
    p.run (n + 1) = (p.tickOne).bind (fun st =>
      (st.1.run n).bind (fun rest =>
        some (rest.1, (if st.2 then 1 else 0) + rest.2))) :=
  rfl

theorem dotCounterRun_succ (n : Nat) (st : (Int × Nat) × Nat) :
    dotCounterRun (n + 1) st =
      dotCounterRun n ((dotCounterStep st.1.1 st.1.2).1,
        st.2 + (if (dotCounterStep st.1.1 st.1.2).2 then 1 else 0)) :=
  rfl

theorem run_spec : ∀ (n : Nat) (p : PPU), p.Inv →
    ∃ q k, p.run n = some (q, k) ∧ q.Inv ∧
      ∀ a, dotCounterRun n ((p.scanline, p.cycles), a) =
        ((q.scanline, q.cycles), a + k) := by
  intro n
  induction n with
  | zero =>
    intro p hInv
    exact ⟨p, 0, rfl, hInv, fun a => rfl⟩
  | succ n ih =>
    intro p hInv
    obtain ⟨q1, flag, h1, hInv1, hstep⟩ := tickOne_bridge p hInv
    obtain ⟨q, k, hrun, hInvq, hdcr⟩ := ih q1 hInv1
    refine ⟨q, (if flag then 1 else 0) + k, ?_, hInvq, ?_⟩
    · rw [run_succ, h1]
      simp only [Option.some_bind]
      rw [hrun]
      simp only [Option.some_bind]
    · intro a
      rw [dotCounterRun_succ]
      dsimp only
      rw [← hstep]
      dsimp only
      rw [hdcr]
      rw [Nat.add_assoc]

theorem dotCounterRun_add (m n : Nat) :
    ∀ st : (Int × Nat) × Nat,
      dotCounterRun (m + n) st = dotCounterRun n (dotCounterRun m st) := by
  induction m with
  | zero =>
    intro st
    rw [Nat.zero_add]
    rfl
  | succ m ih =>
    intro st
    rw [Nat.add_right_comm m 1 n, dotCounterRun_succ]
    exact ih _

theorem dcr_scanline_aux : ∀ (k : Nat) (s : Int) (c : Nat), s ≠ 0 → c + k = 340 →
    ¬(261 ≤ s + 1) → dotCounterRun (k + 1) ((s, c), 0) = ((s + 1, 0), 0) := by
  intro k
  induction k with
  | zero =>
    intro s c hs hc h261
    have hstep : dotCounterStep s c = ((s + 1, 0), false) := by
      rw [dotCounterStep_eq, if_neg (fun hk : s = 0 ∧ c = 0 => hs hk.1),
        if_pos (by omega : 341 ≤ c + 1), if_neg h261]
    rw [dotCounterRun_succ]
    dsimp only
    rw [hstep]
    rfl
  | succ k ih =>
    intro s c hs hc h261
    have hstep : dotCounterStep s c = ((s, c + 1), false) := by
      rw [dotCounterStep_eq, if_neg (fun hk : s = 0 ∧ c = 0 => hs hk.1),
        if_neg (by omega : ¬(341 ≤ c + 1))]
    rw [dotCounterRun_succ]
    dsimp only
    rw [hstep]
    exact ih s (c + 1) hs (by omega) h261

theorem dcr_scanline (s : Int) (h1 : 1 ≤ s) (h2 : s ≤ 259) :
    dotCounterRun 341 ((s, 0), 0) = ((s + 1, 0), 0) :=
  dcr_scanline_aux 340 s 0 (by omega) (by omega) (by omega)

theorem dcr_stretch : ∀ (m : Nat) (s : Int), 1 ≤ s → s + m ≤ 260 →
    dotCounterRun (341 * m) ((s, 0), 0) = ((s + m, 0), 0) := by
  intro m
  induction m with
  | zero =>
    intro s h1 h2
    have h : s + ((0 : Nat) : Int) = s := by omega
    rw [h]
    rfl
  | succ m ih =>
    intro s h1 h2
    have hsplit : 341 * (m + 1) = 341 * m + 341 := by ring
    rw [hsplit, dotCounterRun_add, ih s h1 (by omega),
      dcr_scanline (s + (m : Int)) (by omega) (by omega)]
    have harith : s + (m : Int) + 1 = s + ((m : Nat) + 1 : Nat) := by omega
    rw [harith]

theorem dcr_c100a : dotCounterRun 100 (((0 : Int), 0), 0) = ((0, 101), 0) := by
  decide

theorem dcr_c100b : dotCounterRun 100 (((0 : Int), 101), 0) = ((0, 201), 0) := by
  decide

theorem dcr_c100c : dotCounterRun 100 (((0 : Int), 201), 0) = ((0, 301), 0) := by
  decide

theorem dcr_c40 : dotCounterRun 40 (((0 : Int), 301), 0) = ((1, 0), 0) := by
  decide

theorem dcr_chunk1 : dotCounterRun 340 (((0 : Int), 0), 0) = ((1, 0), 0) := by
  have h : (340 : Nat) = 100 + (100 + (100 + 40)) := by norm_num
  rw [h, dotCounterRun_add, dcr_c100a, dotCounterRun_add, dcr_c100b,
    dotCounterRun_add, dcr_c100c, dcr_c40]

theorem dcr_d100a : dotCounterRun 100 (((260 : Int), 0), 0) = ((260, 100), 0) := by
  decide

theorem dcr_d100b : dotCounterRun 100 (((260 : Int), 100), 0) = ((260, 200), 0) := by
  decide

theorem dcr_d100c : dotCounterRun 100 (((260 : Int), 200), 0) = ((260, 300), 0) := by
  decide

theorem dcr_d41 : dotCounterRun 41 (((260 : Int), 300), 0) = ((-1, 0), 1) := by
  decide

theorem dcr_chunk260 : dotCounterRun 341 (((260 : Int), 0), 0) = ((-1, 0), 1) := by
  have h : (341 : Nat) = 100 + (100 + (100 + 41)) := by norm_num
  rw [h, dotCounterRun_add, dcr_d100a, dotCounterRun_add, dcr_d100b,
    dotCounterRun_add, dcr_d100c, dcr_d41]

theorem dcr_e100a : dotCounterRun 100 (((-1 : Int), 0), 1) = ((-1, 100), 1) := by
  decide

theorem dcr_e100b : dotCounterRun 100 (((-1 : Int), 100), 1) = ((-1, 200), 1) := by
  decide

theorem dcr_e100c : dotCounterRun 100 (((-1 : Int), 200), 1) = ((-1, 300), 1) := by
  decide

theorem dcr_e42 : dotCounterRun 42 (((-1 : Int), 300), 1) = ((0, 2), 1) := by
  decide

theorem dcr_chunk_tail : dotCounterRun 342 (((-1 : Int), 0), 1) = ((0, 2), 1) := by
  have h : (342 : Nat) = 100 + (100 + (100 + 42)) := by norm_num
  rw [h, dotCounterRun_add, dcr_e100a, dotCounterRun_add, dcr_e100b,
    dotCounterRun_add, dcr_e100c, dcr_e42]

theorem dcr_total :
    dotCounterRun (341 * 262) (((0 : Int), 0), 0) = ((0, 2), 1) := by
  have hsplit : (341 * 262 : Nat) = 340 + (88319 + (341 + 342)) := by norm_num
  have hmid : dotCounterRun 88319 (((1 : Int), 0), 0) = ((260, 0), 0) := by
    have h3 : (88319 : Nat) = 341 * 259 := by norm_num
    have := dcr_stretch 259 1 (by omega) (by omega)
    rw [h3]
    simpa using this
  rw [hsplit, dotCounterRun_add, dcr_chunk1, dotCounterRun_add, hmid,
    dotCounterRun_add, dcr_chunk260, dcr_chunk_tail]

theorem Inv_new (chr : Nat → Nat) (m : Mirroring) (h : ∀ a, chr a < 256) :
    (PPU.new chr m).Inv :=
  ⟨⟨h, fun _ => (by decide : (0 : Nat) < 256), fun _ => (by decide : (0 : Nat) < 256),
    (by decide : (0 : Nat) < 256)⟩,
   ⟨(by decide : (0 : Nat) < 32), (by decide : (0 : Nat) < 32),
    (by decide : (0 : Nat) < 2), (by decide : (0 : Nat) < 2),
    (by decide : (0 : Nat) < 8)⟩,
   rfl, rfl, Or.inl rfl⟩

/-- C6 (counterexample): driving the freshly constructed PPU (all-zero CHR
ROM, horizontal mirroring) one dot at a time for exactly `341 * 262` dots
panics nowhere, reports exactly one completed frame, but leaves the PPU at
`scanline = 0, cycles = 2` — not at `scanline = -1, cycles = 0` as the spec
claims: `PPU::new` starts at scanline 0 (not −1), and the odd-frame skip at
`(0, 0)` displaces the cadence by one dot. -/
theorem c6_frame_cadence_counterexample :
    ((PPU.new (fun _ => 0) Mirroring.Horizontal).run (341 * 262)).map
        (fun st => ((st.1.scanline, st.1.cycles), st.2)) =
      some ((((0 : Int), (2 : Nat)), (1 : Nat))) ∧
    (((0 : Int), (2 : Nat))) ≠ (((-1 : Int), (0 : Nat))) := by
  constructor
  · obtain ⟨q, k, hrun, _, hdcr⟩ := run_spec (341 * 262)
      (PPU.new (fun _ => 0) Mirroring.Horizontal)
      (Inv_new (fun _ => 0) Mirroring.Horizontal (fun a => (by decide : (0 : Nat) < 256)))
    have h0 := hdcr 0
    have hinit : ((PPU.new (fun _ => 0) Mirroring.Horizontal).scanline,
        (PPU.new (fun _ => 0) Mirroring.Horizontal).cycles) = ((0 : Int), (0 : Nat)) :=
      rfl
    rw [hinit] at h0
    have hq := h0.symm.trans dcr_total
    simp only [Prod.mk.injEq] at hq
    obtain ⟨⟨hqs, hqc⟩, hk⟩ := hq
    rw [Nat.zero_add] at hk
    rw [hrun]
    show some ((q.scanline, q.cycles), k) = _
    rw [hqs, hqc, hk]
  · decide

/-- C6 (amended): for every byte-sized CHR ROM and mirroring mode, driving
the freshly constructed PPU for exactly `341 * 262` dots never hits a
panic, reports exactly one completed frame, and leaves the PPU at
`scanline = 0, cycles = 2` (the fresh PPU starts at scanline 0, and the
odd-frame skip at `(0, 0)` advances the first dot to cycle 1 before the
generic advance). -/
theorem c6_frame_cadence_amended (chr : Nat → Nat) (m : Mirroring)
    (h : ∀ a, chr a < 256) :
    ((PPU.new chr m).run (341 * 262)).map
        (fun st => ((st.1.scanline, st.1.cycles), st.2)) =
      some ((((0 : Int), (2 : Nat)), (1 : Nat))) := by
  obtain ⟨q, k, hrun, _, hdcr⟩ := run_spec (341 * 262) (PPU.new chr m)
    (Inv_new chr m h)
  have h0 := hdcr 0
  have hinit : ((PPU.new chr m).scanline, (PPU.new chr m).cycles) =
      ((0 : Int), (0 : Nat)) := rfl
  rw [hinit] at h0
  have hq := h0.symm.trans dcr_total
  simp only [Prod.mk.injEq] at hq
  obtain ⟨⟨hqs, hqc⟩, hk⟩ := hq
  rw [Nat.zero_add] at hk
  rw [hrun]
  show some ((q.scanline, q.cycles), k) = _
  rw [hqs, hqc, hk]

/-- Witness for the amended C6 theorem at the all-zero CHR ROM with
horizontal mirroring. -/
theorem c6_frame_cadence_amended_witness :
    ((PPU.new (fun _ => 0) Mirroring.Horizontal).run (341 * 262)).map
        (fun st => ((st.1.scanline, st.1.cycles), st.2)) =
      some ((((0 : Int), (2 : Nat)), (1 : Nat))) :=
  c6_frame_cadence_amended (fun _ => 0) Mirroring.Horizontal (fun a => (by decide : (0 : Nat) < 256))

/-! ## C7: writes into cartridge ROM space are fatal -/

/-- C7: for every bus state, every address in `$8000-$FFFF` and every
byte value, `Bus::mem_write` is the fatal `panic!("Attempt to write to
Cartridge ROM space")` — modelled as `none`, with no resulting bus
state (so no RAM, PPU or joypad mutation survives the attempt). -/
theorem c7_rom_write_is_fatal (b : Bus) (addr value : Nat)
    (h1 : 0x8000 ≤ addr) (h2 : addr ≤ 0xFFFF) :
    b.mem_write addr value = none := by
  have hram : ¬(addr ≤ 0x1FFF) := by omega
  have hppu : ¬(0x2000 ≤ addr ∧ addr ≤ 0x2007) := by omega
  have hdma : ¬(addr = 0x4014) := by omega
  have hmir : ¬(0x2008 ≤ addr ∧ addr ≤ 0x3FFF) := by omega
  have hapu : ¬((0x4000 ≤ addr ∧ addr ≤ 0x4013) ∨ addr = 0x4015) := by omega
  have hj1 : ¬(addr = 0x4016) := by omega
  have hj2 : ¬(addr = 0x4017) := by omega
  rw [Bus.mem_write]
  rw [if_neg hram, if_neg hppu, if_neg hdma, if_neg hmir, if_neg hapu,
      if_neg hj1, if_neg hj2, if_pos ⟨h1, h2⟩]

/-- C7 witness: writing to the reset vector address `$FFFC` on a fresh
bus is the fatal outcome. -/
theorem c7_rom_write_is_fatal_witness :
    (0x8000 : Nat) ≤ 0xFFFC ∧ (0xFFFC : Nat) ≤ 0xFFFF ∧
    (Bus.new PPU.new_empty_rom).mem_write 0xFFFC 0x12 = none :=
  ⟨by decide, by decide,
    c7_rom_write_is_fatal (Bus.new PPU.new_empty_rom) 0xFFFC 0x12
      (by decide) (by decide)⟩

/-! ## C10: OAM DMA -/

theorem dma_cons (p : PPU) (x : Nat) (l : List Nat) :
    p.write_oam_dma (x :: l) = (p.write_to_oam_data x).write_oam_dma l := rfl

theorem oam_write_addr (p : PPU) (x : Nat) :
    (p.write_to_oam_data x).registers.oam_address =
      (p.registers.oam_address + 1) % 256 := rfl

theorem dma_final_addr (l : List Nat) : ∀ (p : PPU),
    p.registers.oam_address < 256 →
    (p.write_oam_dma l).registers.oam_address =
      (p.registers.oam_address + l.length) % 256 := by
  induction l with
  | nil =>
    intro p hp
    simp [PPU.write_oam_dma, Nat.mod_eq_of_lt hp]
  | cons x l ih =>
    intro p hp
    rw [dma_cons, ih _ (by rw [oam_write_addr]; omega), oam_write_addr]
    simp [List.length_cons]
    omega

theorem dma_untouched (l : List Nat) : ∀ (p : PPU) (j : Nat),
    p.registers.oam_address < 256 →
    (∀ m, m < l.length → (p.registers.oam_address + m) % 256 ≠ j) →
    (p.write_oam_dma l).oam_data j = p.oam_data j := by
  induction l with
  | nil => intro p j _ _; rfl
  | cons x l ih =>
    intro p j hp hm
    rw [dma_cons, ih _ _ (by rw [oam_write_addr]; omega) ?later]
    case later =>
      intro m hmlt
      rw [oam_write_addr]
      have := hm (m + 1) (by simpa using Nat.succ_lt_succ hmlt)
      omega
    show (if j = p.registers.oam_address then x else p.oam_data j) = p.oam_data j
    have h0 := hm 0 (by simp)
    rw [if_neg (by omega)]

theorem dma_writes (l : List Nat) : ∀ (p : PPU) (i : Nat),
    i < l.length → l.length ≤ 256 → p.registers.oam_address < 256 →
    (p.write_oam_dma l).oam_data ((p.registers.oam_address + i) % 256) =
      l.getD i 0 := by
  induction l with
  | nil => intro p i hi _ _; simp at hi
  | cons x l ih =>
    intro p i hi hlen hp
    match i with
    | 0 =>
      rw [dma_cons]
      have htarget : (p.registers.oam_address + 0) % 256 = p.registers.oam_address := by
        omega
      rw [htarget]
      rw [dma_untouched l _ _ (by rw [oam_write_addr]; omega) ?notme]
      case notme =>
        intro m hm
        rw [oam_write_addr]
        simp only [List.length_cons] at hlen
        omega
      show (if p.registers.oam_address = p.registers.oam_address then x else _) = _
      rw [if_pos rfl]
      rfl
    | i + 1 =>
      rw [dma_cons]
      have hstep : (p.registers.oam_address + (i + 1)) % 256 =
          ((p.write_to_oam_data x).registers.oam_address + i) % 256 := by
        rw [oam_write_addr]
        omega
      rw [hstep, ih _ _ (by simpa using hi) (by simp at hlen; omega)
        (by rw [oam_write_addr]; omega)]
      rfl

/-- C10: for every initial OAM address `a < 256` and every 256-byte
buffer, `PPU::write_oam_dma` stores buffer byte `i` into
`oam_data[(a + i) mod 256]` for each `i < 256` — overwriting the whole
OAM exactly once — and afterwards the OAM address register again
equals `a`. -/
theorem c10_oam_dma_wraparound (p : PPU) (data : List Nat)
    (hlen : data.length = 256) (ha : p.registers.oam_address < 256)
    (i : Nat) (hi : i < 256) :
    (p.write_oam_dma data).oam_data ((p.registers.oam_address + i) % 256) =
      data.getD i 0 ∧
    (p.write_oam_dma data).registers.oam_address = p.registers.oam_address := by
  constructor
  · exact dma_writes data p i (by omega) (by omega) ha
  · rw [dma_final_addr data p ha, hlen]
    omega

/-- C10 witness: DMA of the buffer `[0, 1, …, 255]` into a fresh PPU whose
OAM address was set to `0x10`, checked at buffer index 0. -/
theorem c10_oam_dma_wraparound_witness :
    (List.range 256).length = 256 ∧
    ((PPU.new_empty_rom.write_to_oam_address 0x10).registers.oam_address < 256 ∧
      (0 : Nat) < 256) ∧
    (((PPU.new_empty_rom.write_to_oam_address 0x10).write_oam_dma
        (List.range 256)).oam_data
        (((PPU.new_empty_rom.write_to_oam_address 0x10).registers.oam_address + 0) % 256) =
      (List.range 256).getD 0 0 ∧
      ((PPU.new_empty_rom.write_to_oam_address 0x10).write_oam_dma
        (List.range 256)).registers.oam_address =
        (PPU.new_empty_rom.write_to_oam_address 0x10).registers.oam_address) :=
  ⟨by decide, ⟨by decide, by decide⟩,
    c10_oam_dma_wraparound (PPU.new_empty_rom.write_to_oam_address 0x10)
      (List.range 256) (by simp) (by decide) 0 (by decide)⟩

/-- C9 witness: the round trip on a function store at the wraparound
address `$FFFF` with value `0x1122`. -/
theorem c9_u16_round_trip_witness :
    (0xFFFF : Nat) < 65536 ∧ (0x1122 : Nat) < 65536 ∧
    Mem.read_u16 fnMemRead (Mem.write_u16 fnMemWrite (fun _ => 0) 0xFFFF 0x1122) 0xFFFF =
      0x1122 :=
  ⟨by decide, by decide,
    c9_u16_round_trip fnMemRead fnMemWrite
      (fun s a v => by simp [fnMemRead, fnMemWrite])
      (fun s a b v hne => by simp [fnMemRead, fnMemWrite, hne])
      (fun _ => 0) 0xFFFF 0x1122 (by decide) (by decide)⟩

end NES
